import Mathlib

/-!
# Verification of the wallAgg aggregation core

A shallow embedding, in Lean 4, of the parts of the wallAgg repository that
the specification claims talk about:

* `src/services/security/session_manager.py` (`SecureSessionManager`)
* `src/services/security/validation.py` (`InputValidator`)
* `src/services/blockchain/ethereum.py` (`EthereumClient`)
* `src/services/blockchain/bitcoin.py` (`BitcoinClient`)
* `src/services/exchanges/exchange_client.py` (`ExchangeClient`)
* `src/services/pricing/coingecko.py` (`CoinGeckoClient`)
* `src/services/account_manager.py` (`AccountManager`)

Modelling conventions, used throughout:

* Python exceptions are modelled with `Except PyExc`; raising is
  `Except.error`, and `try/except` clauses are explicit `match`es.
* Time is an integer number of seconds (`datetime` subtraction becomes
  integer subtraction); `timedelta(hours=1)` is `3600`.
* Python dicts (which preserve insertion order) are association lists with
  insert-or-replace (`dictSet`) and first-match lookup (`dictGet`).
* Network I/O is an explicit oracle parameter: functions take the outcome
  of each HTTP request (indexed by attempt number where the `tenacity`
  retry decorator can re-issue it) and the embedding threads request
  counts and logs so that claims about "how many calls" are statable.
* Python `float` values are modelled as exact rationals except where a
  claim is specifically about binary64 precision; there (`fl64`,
  `pyFloatDiv`) IEEE-754 double rounding is modelled explicitly.
-/

namespace WallAgg

/-- Python exception values that the embedded code can raise.  `retryError`
is `tenacity.RetryError`, which wraps the exception of the last failed
attempt (`last_attempt`). -/
inductive PyExc where
  | valueError (msg : String)
  | typeError (msg : String)
  | attributeError (msg : String)
  | keyError (msg : String)
  | exchangeError (msg : String)
  | requestException (msg : String)
  | retryError (last : PyExc)
deriving DecidableEq, Repr

/-- Ordered-dict lookup: first entry whose key matches. -/
def dictGet {β : Type} (m : List (String × β)) (k : String) : Option β :=
  match m with
  | [] => none
  | (k', v) :: rest => if k' = k then some v else dictGet rest k

/-- Ordered-dict insert-or-replace, preserving insertion order as Python
dicts do: replacing a key keeps its position, a new key goes to the end. -/
def dictSet {β : Type} (m : List (String × β)) (k : String) (v : β) :
    List (String × β) :=
  match m with
  | [] => [(k, v)]
  | (k', v') :: rest =>
    if k' = k then (k, v) :: rest else (k', v') :: dictSet rest k v

end WallAgg

namespace WallAgg

/-! ## Credential session store — `SecureSessionManager`

Streamlit `st.session_state` is dict-like: a key assigned `None` remains
present (membership tests such as `'session_start' not in st.session_state`
see the key), so each session field is modelled as `Option (Option _)`:
the outer `none` means the key is absent, `some none` means the key is
present holding Python `None`. -/

/-- One stored credential: `{'api_key': ..., 'api_secret': ..., 'stored_at': ...}`. -/
structure Credential where
  api_key : String
  api_secret : String
  stored_at : Int
deriving DecidableEq, Repr

/-- The slice of `st.session_state` owned by `SecureSessionManager`.
(The `accounts` list it also resets is UI state outside every claim and is
not modelled.) -/
structure SessionSt where
  session_id : Option (Option String)
  session_start : Option (Option Int)
  credentials : Option (List (String × Credential))
deriving DecidableEq, Repr

/-- `SecureSessionManager.SESSION_TIMEOUT = timedelta(hours=1)`, in seconds. -/
def SESSION_TIMEOUT : Int := 3600

/-- `SecureSessionManager.init_session`: only initializes when the
`session_id` key is absent (a key holding `None` counts as present). -/
def init_session (now : Int) (sid : String) (s : SessionSt) : SessionSt :=
  match s.session_id with
  | none =>
    { session_id := some (some sid)
      session_start := some (some now)
      credentials := some [] }
  | some _ => s

/-- `SecureSessionManager.is_session_valid`.  If the `session_start` key is
absent the session is invalid; if the key holds `None` (the state
`clear_session` leaves behind) the subtraction `datetime.now() -
st.session_state.session_start` raises `TypeError`; otherwise the session
is valid exactly when the elapsed time is strictly below the timeout. -/
def is_session_valid (now : Int) (s : SessionSt) : Except PyExc Bool :=
  match s.session_start with
  | none => Except.ok false
  | some none =>
    Except.error (PyExc.typeError
      "unsupported operand type(s) for -: datetime and NoneType")
  | some (some start) => Except.ok (now - start < SESSION_TIMEOUT)

/-- `SecureSessionManager.clear_session`: every stored secret is first
overwritten with fixed filler, the mapping is emptied, and the session
metadata keys are set to `None` (the keys stay present). -/
def clear_session (s : SessionSt) : SessionSt :=
  { session_id := some none
    session_start := some none
    credentials :=
      match s.credentials with
      | none => none
      | some _ => some [] }

/-- `SecureSessionManager.store_credential`: raises
`ValueError("Session expired")` unless the session is valid, otherwise
writes the entry into the `credentials` dict. -/
def store_credential (now : Int) (account_id api_key api_secret : String)
    (s : SessionSt) : Except PyExc SessionSt :=
  match is_session_valid now s with
  | Except.error e => Except.error e
  | Except.ok valid =>
    if !valid then
      Except.error (PyExc.valueError "Session expired")
    else
      match s.credentials with
      | none =>
        Except.error (PyExc.attributeError "st.session_state has no attribute credentials")
      | some m =>
        Except.ok { s with credentials := some (dictSet m account_id ⟨api_key, api_secret, now⟩) }

/-- `SecureSessionManager.get_credential`: when the session is invalid the
whole store is cleared and `None` is returned; otherwise the entry (or
`None`) is looked up.  Returns the value together with the post state. -/
def get_credential (now : Int) (account_id : String) (s : SessionSt) :
    Except PyExc (Option Credential × SessionSt) :=
  match is_session_valid now s with
  | Except.error e => Except.error e
  | Except.ok valid =>
    if !valid then
      Except.ok (none, clear_session s)
    else
      match s.credentials with
      | none =>
        Except.error (PyExc.attributeError "st.session_state has no attribute credentials")
      | some m => Except.ok (dictGet m account_id, s)

end WallAgg

namespace WallAgg

/-! ## Input validation — `InputValidator`

`validate_eth_address` and `validate_btc_address` use `re.match` with
patterns ending in `$`.  Python `re` semantics without `re.MULTILINE`:
`re.match` anchors at the start of the string only, and `$` matches at the
end of the string **or just before a newline at the end of the string** —
so a single trailing `'\n'` after an otherwise matching string is
accepted.  The matchers below embed exactly those semantics. -/

/-- The character class `[a-fA-F0-9]`. -/
def isHexDigit (c : Char) : Bool :=
  ('0' ≤ c && c ≤ '9') || ('a' ≤ c && c ≤ 'f') || ('A' ≤ c && c ≤ 'F')

/-- Consume exactly `n` hex digits (the `{40}` quantifier), returning the
remainder of the input on success. -/
def consumeHex : Nat → List Char → Option (List Char)
  | 0, rest => some rest
  | _ + 1, [] => none
  | n + 1, c :: rest => if isHexDigit c then consumeHex n rest else none

/-- Python `$` (no `re.MULTILINE`): end of input, or a single final newline. -/
def pyDollar (rest : List Char) : Bool :=
  rest == [] || rest == ['\n']

/-- `re.match` of `ETH_ADDRESS_PATTERN = r'^0x[a-fA-F0-9]{40}$'`: the
anchored literal `0x`, forty characters of the class, then `$`. -/
def eth_regex_match (cs : List Char) : Bool :=
  match cs with
  | c0 :: c1 :: rest =>
    c0 == '0' && c1 == 'x' &&
      (match consumeHex 40 rest with
       | none => false
       | some r => pyDollar r)
  | _ => false

/-- `InputValidator.validate_eth_address` (empty strings are rejected with
their own message before the pattern is tried). -/
def validate_eth_address (address : String) : Bool × String :=
  if address = "" then
    (false, "Address cannot be empty")
  else if !eth_regex_match address.data then
    (false, "Invalid Ethereum address format (must be 0x + 40 hex chars)")
  else
    (true, "Valid")

/-- The character class `[a-zA-HJ-NP-Z0-9]`. -/
def btcChar (c : Char) : Bool :=
  ('a' ≤ c && c ≤ 'z') || ('A' ≤ c && c ≤ 'H') || ('J' ≤ c && c ≤ 'N') ||
    ('P' ≤ c && c ≤ 'Z') || ('0' ≤ c && c ≤ '9')

/-- The body `[a-zA-HJ-NP-Z0-9]{25,62}` consuming the whole remaining
input.  Because `'\n'` is not in the class, combining this with
`pyTailMatch` below gives exactly the greedy-with-backtracking semantics
of `{25,62}$`. -/
def btcCore (cs : List Char) : Bool :=
  25 ≤ cs.length && cs.length ≤ 62 && cs.all btcChar

/-- Apply a whole-tail matcher under Python `$` semantics: the tail
matches as-is, or it ends in a newline and the part before it matches. -/
def pyTailMatch (core : List Char → Bool) (cs : List Char) : Bool :=
  core cs || (cs.getLast? == some '\n' && core cs.dropLast)

/-- `re.match` of `BTC_ADDRESS_PATTERN = r'^(bc1|[13])[a-zA-HJ-NP-Z0-9]{25,62}$'`. -/
def btc_regex_match (cs : List Char) : Bool :=
  match cs with
  | 'b' :: 'c' :: '1' :: rest => pyTailMatch btcCore rest
  | '1' :: rest => pyTailMatch btcCore rest
  | '3' :: rest => pyTailMatch btcCore rest
  | _ => false

/-- `InputValidator.validate_btc_address`. -/
def validate_btc_address (address : String) : Bool × String :=
  if address = "" then
    (false, "Address cannot be empty")
  else if !btc_regex_match address.data then
    (false, "Invalid Bitcoin address format")
  else
    (true, "Valid")

/-- The address shape the specification describes for Ethereum: `0x`
followed by exactly 40 hexadecimal characters, nothing else.  Stated from
the words of the spec, to be compared with `validate_eth_address`. -/
def specEthShape (cs : List Char) : Bool :=
  match cs with
  | c0 :: c1 :: rest => c0 == '0' && c1 == 'x' && rest.length == 40 && rest.all isHexDigit
  | _ => false

end WallAgg

namespace WallAgg

/-! ## Binary64 arithmetic model

Used only where a claim is about floating-point precision.  `fl64` rounds
a rational to the nearest IEEE-754 binary64 value (round-to-nearest,
ties-to-even), assuming the input is in the normal finite range — every
quantity any claim evaluates is far inside it. -/

/-- Round to the nearest integer, ties to even. -/
def rne (q : ℚ) : ℤ :=
  if q - ⌊q⌋ < 1 / 2 then ⌊q⌋
  else if 1 / 2 < q - ⌊q⌋ then ⌊q⌋ + 1
  else if ⌊q⌋ % 2 = 0 then ⌊q⌋ else ⌊q⌋ + 1

/-- Binary64 rounding of a positive rational: keep 53 significant bits
(the unit in the last place of `q` is `2 ^ (Int.log 2 q - 52)`). -/
def fl64pos (q : ℚ) : ℚ :=
  (rne (q / 2 ^ (Int.log 2 q - 52)) : ℚ) * 2 ^ (Int.log 2 q - 52)

/-- Binary64 rounding (round-to-nearest, ties-to-even, normal range). -/
def fl64 (q : ℚ) : ℚ :=
  if q = 0 then 0 else if 0 < q then fl64pos q else -fl64pos (-q)

/-- Python true division between numbers held as binary64 doubles: both
operands are (the doubles nearest) `a` and `b`, and IEEE division returns
the correctly rounded exact quotient. -/
def pyFloatDiv (a b : ℚ) : ℚ :=
  fl64 (fl64 a / fl64 b)

end WallAgg

namespace WallAgg

/-! ## Retry discipline — `tenacity`

Every provider call is decorated with
`@retry(stop=stop_after_attempt(3), wait=wait_exponential(...))`.
With `tenacity` defaults this retries on **every** exception (no `retry=`
predicate restricts the exception kinds) and, because `reraise` defaults
to `False`, exhaustion raises `RetryError` wrapping the final attempt
rather than re-raising the underlying exception.  The backoff `wait`
affects only elapsed time, which no claim measures.

`body` maps the 1-based attempt number to the attempt's outcome together
with the number of HTTP requests that attempt issued; the wrapper returns
the overall outcome, the number of attempts made, and the total number of
HTTP requests issued. -/

/-- One `tenacity` retry loop from a given attempt number with the given
number of attempts remaining. -/
def tenacityRun {α : Type} (body : Nat → Except PyExc α × Nat) :
    Nat → Nat → Except PyExc α × Nat × Nat
  | _, 0 => (Except.error (PyExc.retryError (PyExc.valueError "no attempts")), 0, 0)
  | attempt, fuel + 1 =>
    match body attempt with
    | (Except.ok a, reqs) => (Except.ok a, 1, reqs)
    | (Except.error e, reqs) =>
      match fuel with
      | 0 => (Except.error (PyExc.retryError e), 1, reqs)
      | _ + 1 =>
        let r := tenacityRun body (attempt + 1) fuel
        (r.1, r.2.1 + 1, reqs + r.2.2)

/-- `@retry(stop=stop_after_attempt(3), wait=wait_exponential(multiplier=1, min=2, max=10))`. -/
def tenacityCall {α : Type} (body : Nat → Except PyExc α × Nat) :
    Except PyExc α × Nat × Nat :=
  tenacityRun body 1 3

end WallAgg

namespace WallAgg

/-! ## Small Python helpers -/

/-- Python `needle in hay` on strings: substring test. -/
def pyIn (needle hay : String) : Bool :=
  decide (needle.data <:+: hay.data)

/-- ASCII upper-casing of one character (all strings the code upper- or
lower-cases — tickers, hex addresses, API messages — are ASCII). -/
def pyUpperChar (c : Char) : Char :=
  if 'a' ≤ c && c ≤ 'z' then Char.ofNat (c.toNat - 32) else c

/-- Python `str.upper()` on ASCII strings. -/
def pyUpper (s : String) : String :=
  ⟨s.data.map pyUpperChar⟩

/-- ASCII lower-casing of one character. -/
def pyLowerChar (c : Char) : Char :=
  if 'A' ≤ c && c ≤ 'Z' then Char.ofNat (c.toNat + 32) else c

/-- Python `str.lower()` on ASCII strings. -/
def pyLower (s : String) : String :=
  ⟨s.data.map pyLowerChar⟩

/-- Value of a nonempty all-digit character list. -/
def digitsVal (cs : List Char) : Option Nat :=
  if cs ≠ [] && cs.all (fun c => '0' ≤ c && c ≤ '9') then
    some (cs.foldl (fun a c => a * 10 + (c.toNat - Char.toNat '0')) 0)
  else none

/-- Python `int(s)` on a plain decimal string (optional leading minus);
`none` models the `ValueError` that `int` raises otherwise. -/
def pyInt (s : String) : Option Int :=
  match s.data with
  | '-' :: rest => (digitsVal rest).map (fun n => -(n : Int))
  | cs => (digitsVal cs).map (fun n => (n : Int))

/-- Outcome of one HTTP request: a transport-level failure
(`requests.exceptions.RequestException`, which also covers the `HTTPError`
that `raise_for_status` throws) or a decoded JSON payload. -/
inductive HttpOutcome (α : Type) where
  | netErr (msg : String)
  | ok (resp : α)

end WallAgg

namespace WallAgg

/-! ## Ethereum provider — `EthereumClient` -/

/-- A wallet's native-balance line: `{'symbol', 'balance', 'address'}`. -/
structure NativeHolding where
  symbol : String
  balance : ℚ
  address : String
deriving DecidableEq, Repr

/-- A token-balance line: `{'symbol', 'balance', 'token_address', 'name'}`. -/
structure TokenHolding where
  symbol : String
  balance : ℚ
  token_address : String
  name : String
deriving DecidableEq, Repr

/-- Etherscan account-balance JSON: `status`, `message`, `result` fields. -/
structure EtherscanResp where
  status : String
  message : String
  result : String
deriving DecidableEq, Repr

/-- `EthereumClient.validate_address`. -/
def eth_validate_address (address : String) : Bool :=
  (validate_eth_address address).1

/-- One attempt of `EthereumClient.get_native_balance` (the body the
`@retry` decorator wraps), returning the outcome and the number of HTTP
requests this attempt issued.  `balance_wei / 1e18` is Python float
division; the literal `1e18` is the binary64 double whose exact value is
`10 ^ 18`. -/
def eth_native_body (address : String) (net : Nat → HttpOutcome EtherscanResp)
    (attempt : Nat) : Except PyExc NativeHolding × Nat :=
  if !eth_validate_address address then
    (Except.error (PyExc.valueError ("Invalid Ethereum address: " ++ address)), 0)
  else
    match net attempt with
    | HttpOutcome.netErr _ =>
      (Except.error (PyExc.valueError
        "Network error: Unable to connect to Etherscan API. Please check your internet connection"), 1)
    | HttpOutcome.ok resp =>
      if resp.status ≠ "1" then
        let em := pyLower resp.message
        let rs := pyLower resp.result
        if pyIn "invalid api key" em || pyIn "invalid api key" rs then
          (Except.error (PyExc.valueError
            "Invalid Etherscan API key. Please check your ETHERSCAN_API_KEY in .env file"), 1)
        else if pyIn "rate limit" em || pyIn "rate limit" rs then
          (Except.error (PyExc.valueError
            "Etherscan API rate limit exceeded. Please wait a moment and try again"), 1)
        else if pyIn "deprecated" em || pyIn "deprecated" rs then
          (Except.error (PyExc.valueError
            "Etherscan API error: Using deprecated V1 endpoint. Please update to V2 (already fixed in code, restart app)"), 1)
        else
          (Except.error (PyExc.valueError ("Etherscan API error: " ++ resp.message)), 1)
      else
        match pyInt resp.result with
        | none =>
          (Except.error (PyExc.valueError
            ("invalid literal for int() with base 10: " ++ resp.result)), 1)
        | some w =>
          (Except.ok ⟨"ETH", pyFloatDiv (w : ℚ) ((10 : ℚ) ^ (18 : Nat)), address⟩, 1)

/-- `EthereumClient.get_native_balance` with its `@retry` decorator:
(outcome, attempts made, HTTP requests issued). -/
def eth_get_native_balance (address : String)
    (net : Nat → HttpOutcome EtherscanResp) : Except PyExc NativeHolding × Nat × Nat :=
  tenacityCall (eth_native_body address net)

/-- Per-asset token metadata from `MAJOR_TOKENS`. -/
structure TokenInfo where
  symbol : String
  decimals : Nat
  name : String
deriving DecidableEq, Repr

/-- `EthereumClient.MAJOR_TOKENS`, in source order. -/
def MAJOR_TOKENS : List (String × TokenInfo) :=
  [ ("0xA0b86991c6218b36c1d19D4a2e9Eb0cE3606eB48", ⟨"USDC", 6, "USD Coin"⟩),
    ("0xdAC17F958D2ee523a2206206994597C13D831ec7", ⟨"USDT", 6, "Tether USD"⟩),
    ("0x6B175474E89094C44Da98b954EedeAC495271d0F", ⟨"DAI", 18, "Dai Stablecoin"⟩),
    ("0xC02aaA39b223FE8D0A0e5C4F27eAD9083C756Cc2", ⟨"WETH", 18, "Wrapped Ether"⟩),
    ("0x2260FAC5E5542a773Aa44fBCfeDf7C193bc2C599", ⟨"WBTC", 8, "Wrapped Bitcoin"⟩),
    ("0x514910771AF9Ca656af840dff83E8264EcF986CA", ⟨"LINK", 18, "ChainLink Token"⟩),
    ("0x1f9840a85d5aF5bf1D1762F925BDADdC4201F984", ⟨"UNI", 18, "Uniswap"⟩),
    ("0x7D1AfA7B718fb893dB30A3aBc0Cfc608AaCfeBB0", ⟨"MATIC", 18, "Matic Token"⟩),
    ("0x0bc529c00C6401aEF6D220BE8C6Ea1667F6Ad93e", ⟨"YFI", 18, "yearn.finance"⟩),
    ("0x7Fc66500c84A76Ad7e9c93437bFc5Ac33E2DDaE9", ⟨"AAVE", 18, "Aave Token"⟩),
    ("0x4d224452801ACEd8B2F0aebE155379bb5D594381", ⟨"APE", 18, "ApeCoin"⟩),
    ("0x95aD61b0a150d79219dCF64E1E6Cc01f0B64C4cE", ⟨"SHIB", 18, "SHIBA INU"⟩),
    ("0x6982508145454Ce325dDbE47a25d4ec3d2311933", ⟨"PEPE", 18, "Pepe"⟩),
    ("0xae7ab96520DE3A18E5e111B5EaAb095312D7fE84", ⟨"stETH", 18, "Lido Staked Ether"⟩) ]

/-- `EthereumClient._get_token_balance` is modelled as an oracle
`probe : contract address → int`: the Python function catches every
failure it can see (transport errors, non-`'1'` status, bad payloads) and
returns `0`, so it is total. -/
abbrev TokenProbe := String → Int

/-- STEP 1 of `get_token_balances`: probe each major token, keeping those
with a positive raw balance.  `balance / (10 ** decimals)` is Python float
division. -/
def checkMajorTokens (probe : TokenProbe) : List TokenHolding :=
  MAJOR_TOKENS.foldl
    (fun acc p =>
      let b := probe p.1
      if 0 < b then
        acc ++ [⟨p.2.symbol, pyFloatDiv (b : ℚ) ((10 : ℚ) ^ p.2.decimals), p.1, p.2.name⟩]
      else acc)
    []

/-- The contents of `checked_contracts` after STEP 1: since the probe
never raises (`_get_token_balance` returns `0` on every failure), the
`except ... continue` that would skip the `add` is unreachable and every
major contract address is recorded, lower-cased. -/
def majorChecked : List String :=
  MAJOR_TOKENS.map (fun p => pyLower p.1)

/-- One row of the Etherscan `tokentx` result.  `tokenDecimal` is held
already parsed: `none` models the empty string (the code then defaults to
18). -/
structure TokenTx where
  contractAddress : String
  tokenSymbol : String
  tokenDecimal : Option Nat
  tokenName : String
deriving DecidableEq, Repr

/-- Etherscan `tokentx` JSON: `status` and `result` fields. -/
structure TokentxResp where
  status : String
  result : List TokenTx
deriving DecidableEq, Repr

/-- STEP 3: collect from the transfer history, in first-seen order, the
contracts not already checked (comparison on lower-cased addresses) and
not yet collected. -/
def extractContracts (checked : List String) (txs : List TokenTx) :
    List (String × TokenInfo) :=
  txs.foldl
    (fun acc tx =>
      if checked.contains (pyLower tx.contractAddress) ||
          acc.any (fun p => p.1 == pyLower tx.contractAddress) then acc
      else acc ++ [(pyLower tx.contractAddress,
        ⟨tx.tokenSymbol, tx.tokenDecimal.getD 18, tx.tokenName⟩)])
    []

/-- STEP 4: probe discovered contracts until the counter reaches
`max_additional = 20` (the counter advances whether or not the balance is
positive).  Returns the holdings found and the list of contracts probed. -/
def checkAdditional (probe : TokenProbe) :
    List (String × TokenInfo) → Nat → List TokenHolding × List String
  | [], _ => ([], [])
  | (c, info) :: rest, count =>
    if 20 ≤ count then ([], [])
    else
      let b := probe c
      let r := checkAdditional probe rest (count + 1)
      let here : List TokenHolding :=
        if 0 < b then [⟨info.symbol, pyFloatDiv (b : ℚ) ((10 : ℚ) ^ info.decimals), c, info.name⟩]
        else []
      (here ++ r.1, c :: r.2)

/-- The major-token contract addresses in probe order. -/
def majorAddrs : List String :=
  MAJOR_TOKENS.map (fun p => p.1)

/-- A transfer history naming 25 distinct contracts (`0xc`, `0xcc`, …),
none of them on the allow-list: the spec's Scenario E input. -/
def hist25 : List TokenTx :=
  (List.range 25).map (fun i =>
    ⟨String.mk ('0' :: 'x' :: List.replicate (i + 1) 'c'), "T", some 18, "TOK"⟩)

/-- One attempt of `EthereumClient.get_token_balances`: result is the
holdings list together with the log of contract addresses probed, and the
number of HTTP requests issued (14 major probes, the `tokentx` call, then
one request per additional probe). -/
def eth_token_body (address : String) (probe : TokenProbe)
    (net : Nat → HttpOutcome TokentxResp) (attempt : Nat) :
    Except PyExc (List TokenHolding × List String) × Nat :=
  if !eth_validate_address address then
    (Except.error (PyExc.valueError ("Invalid Ethereum address: " ++ address)), 0)
  else
    let majors := checkMajorTokens probe
    match net attempt with
    | HttpOutcome.netErr _ => (Except.ok (majors, majorAddrs), 15)
    | HttpOutcome.ok resp =>
      if resp.status ≠ "1" || resp.result.isEmpty then
        (Except.ok (majors, majorAddrs), 15)
      else
        let cand := extractContracts majorChecked resp.result
        let extra := checkAdditional probe cand 0
        (Except.ok (majors ++ extra.1, majorAddrs ++ extra.2), 15 + extra.2.length)

/-- `EthereumClient.get_token_balances` with its `@retry` decorator. -/
def eth_get_token_balances (address : String) (probe : TokenProbe)
    (net : Nat → HttpOutcome TokentxResp) :
    Except PyExc (List TokenHolding × List String) × Nat × Nat :=
  tenacityCall (eth_token_body address probe net)

end WallAgg

namespace WallAgg

/-! ## Bitcoin provider — `BitcoinClient` -/

/-- `blockchain.info/balance` JSON: a mapping from address to an object
whose `final_balance` field is the satoshi balance. -/
structure BlockchainInfoResp where
  entries : List (String × Int)
deriving DecidableEq, Repr

/-- `BitcoinClient.validate_address`. -/
def btc_validate_address (address : String) : Bool :=
  (validate_btc_address address).1

/-- One attempt of `BitcoinClient.get_native_balance`.  There is no
`try/except` here: a transport failure propagates as the raw
`RequestException`.  `balance_satoshis / 1e8` is Python float division. -/
def btc_native_body (address : String)
    (net : Nat → HttpOutcome BlockchainInfoResp) (attempt : Nat) :
    Except PyExc NativeHolding × Nat :=
  if !btc_validate_address address then
    (Except.error (PyExc.valueError ("Invalid Bitcoin address: " ++ address)), 0)
  else
    match net attempt with
    | HttpOutcome.netErr m => (Except.error (PyExc.requestException m), 1)
    | HttpOutcome.ok resp =>
      match dictGet resp.entries address with
      | none => (Except.error (PyExc.valueError ("Address not found: " ++ address)), 1)
      | some sat =>
        (Except.ok ⟨"BTC", pyFloatDiv (sat : ℚ) ((10 : ℚ) ^ (8 : Nat)), address⟩, 1)

/-- `BitcoinClient.get_native_balance` with its `@retry` decorator. -/
def btc_get_native_balance (address : String)
    (net : Nat → HttpOutcome BlockchainInfoResp) : Except PyExc NativeHolding × Nat × Nat :=
  tenacityCall (btc_native_body address net)

end WallAgg

namespace WallAgg

/-! ## Exchange provider — `ExchangeClient` -/

/-- The keys of `ExchangeClient.SUPPORTED_EXCHANGES`, in source order. -/
def SUPPORTED_EXCHANGES : List String :=
  ["binance", "coinbase", "kraken", "kucoin", "bybit", "okx"]

/-- One exchange balance line: `{'symbol', 'balance'}`. -/
structure ExchangeHolding where
  symbol : String
  balance : ℚ
deriving DecidableEq, Repr

/-- `ExchangeClient.__init__`: rejects unsupported exchange names. -/
def exchange_client_init (exchange_name : String) : Except PyExc Unit :=
  if SUPPORTED_EXCHANGES.contains exchange_name then Except.ok ()
  else
    Except.error (PyExc.valueError ("Unsupported exchange: " ++ exchange_name))

/-- One attempt of `ExchangeClient.fetch_balances`: `fetch_balance()`
either raises (modelled by the oracle returning an error — ccxt exceptions
are not caught here, so they propagate into the retry wrapper) or yields
the `total` mapping, whose entries can hold `None`.  An entry is kept when
`amounts and amounts > 0`. -/
def exchange_fetch_body (net : Nat → Except PyExc (List (String × Option ℚ)))
    (attempt : Nat) : Except PyExc (List ExchangeHolding) × Nat :=
  match net attempt with
  | Except.error e => (Except.error e, 1)
  | Except.ok totals =>
    let balances := totals.foldl
      (fun acc p =>
        match p.2 with
        | some a => if 0 < a then acc ++ [(⟨p.1, a⟩ : ExchangeHolding)] else acc
        | none => acc)
      []
    (Except.ok balances, 1)

/-- `ExchangeClient.fetch_balances` with its `@retry` decorator.  The
credential pair selects the account upstream and is part of the oracle;
it does not otherwise enter the control flow. -/
def fetch_balances (net : Nat → Except PyExc (List (String × Option ℚ))) :
    Except PyExc (List ExchangeHolding) × Nat × Nat :=
  tenacityCall (exchange_fetch_body net)

end WallAgg

namespace WallAgg

/-! ## Price cache — `CoinGeckoClient`

The cache is a `cachetools.TTLCache(maxsize=100, ttl=settings.PRICE_CACHE_TTL)`
with `PRICE_CACHE_TTL = 60` seconds: a key is visible to `in`/`[]` only
while `now - insertedAt < ttl`.  The `maxsize` bound (least-recently-used
eviction once 100 entries are live) is not modelled; every scenario any
claim evaluates holds at most a handful of entries, where `TTLCache`
behaves identically. -/

/-- `CoinGeckoClient.SYMBOL_TO_ID`, in source order. -/
def SYMBOL_TO_ID : List (String × String) :=
  [ ("BTC", "bitcoin"), ("ETH", "ethereum"), ("USDC", "usd-coin"),
    ("USDT", "tether"), ("DAI", "dai"), ("WETH", "weth"),
    ("WBTC", "wrapped-bitcoin"), ("LINK", "chainlink"), ("UNI", "uniswap"),
    ("MATIC", "matic-network"), ("YFI", "yearn-finance"), ("AAVE", "aave"),
    ("APE", "apecoin"), ("SHIB", "shiba-inu"), ("PEPE", "pepe"),
    ("STETH", "staked-ether"), ("BNB", "binancecoin"), ("SOL", "solana"),
    ("ADA", "cardano"), ("AVAX", "avalanche-2"), ("DOT", "polkadot"),
    ("XRP", "ripple"), ("DOGE", "dogecoin"), ("LTC", "litecoin"),
    ("BCH", "bitcoin-cash"), ("TRX", "tron"), ("ATOM", "cosmos"),
    ("XLM", "stellar"), ("FIL", "filecoin"), ("ETC", "ethereum-classic") ]

/-- The `simple/price` payload: coin id → currency → price. -/
abbrev PriceData := List (String × List (String × ℚ))

/-- A `get_prices` result: upper-cased symbol → currency → price. -/
abbrev PriceMap := List (String × List (String × ℚ))

/-- The price-cache state plus a log of the upstream batch requests made
so far (each entry is the `ids` list of one `simple/price` call; the log
length is the number of upstream calls). -/
structure PCState where
  cache : List (String × PriceMap × Int)
  upcalls : List (List String)
deriving Repr

/-- The empty state a fresh `CoinGeckoClient()` starts with. -/
def PCState.empty : PCState := ⟨[], []⟩

/-- Lexicographic (code-point) string comparison, Python `<=` on `str`. -/
def charListLe : List Char → List Char → Bool
  | [], _ => true
  | _ :: _, [] => false
  | a :: as, b :: bs =>
    if a.toNat < b.toNat then true
    else if b.toNat < a.toNat then false
    else charListLe as bs

/-- Insertion step of a stable insertion sort with Python string order. -/
def pyInsert (x : String) : List String → List String
  | [] => [x]
  | y :: ys => if charListLe x.data y.data then x :: y :: ys else y :: pyInsert x ys

/-- Python `sorted` on a list of strings. -/
def pySorted (l : List String) : List String :=
  l.foldr pyInsert []

/-- Python `','.join(l)`. -/
def pyJoin (l : List String) : String :=
  String.intercalate "," l

/-- The cache key `f"{','.join(sorted(symbols))}:{','.join(sorted(vs_currencies))}"`. -/
def cacheKey (symbols vs_currencies : List String) : String :=
  pyJoin (pySorted symbols) ++ ":" ++ pyJoin (pySorted vs_currencies)

/-- `TTLCache` visibility: present and younger than the ttl. -/
def cacheLookup (cache : List (String × PriceMap × Int)) (key : String)
    (now : Int) (ttl : Int) : Option PriceMap :=
  match cache with
  | [] => none
  | (k, v, t) :: rest =>
    if k = key && now - t < ttl then some v else cacheLookup rest key now ttl

/-- `settings.PRICE_CACHE_TTL` (seconds). -/
def PRICE_CACHE_TTL : Int := 60

/-- The cache holds no fresh entry under the single-symbol key
`"<symbol>:<currency>"`.  `get_prices` never caches a batch whose mapped
coin-id set is empty, so for a symbol outside `SYMBOL_TO_ID` this is every
state the client can reach. -/
def cacheMissFor (st : PCState) (symbol base_currency : String) (now : Int) : Prop :=
  cacheLookup st.cache (cacheKey [symbol] [base_currency]) now PRICE_CACHE_TTL = none

/-- The symbol → coin-id conversion loop of `get_prices`. -/
def coinIdsOf (symbols : List String) : List String :=
  symbols.foldl
    (fun acc symbol =>
      match dictGet SYMBOL_TO_ID (pyUpper symbol) with
      | some cid => acc ++ [cid]
      | none => acc)
    []

/-- The result-building loop of `get_prices`: keep, keyed by upper-cased
symbol, the data rows of the mapped coin ids present in the payload. -/
def buildResult (symbols : List String) (data : PriceData) : PriceMap :=
  symbols.foldl
    (fun acc symbol =>
      match dictGet SYMBOL_TO_ID (pyUpper symbol) with
      | some cid =>
        match dictGet data cid with
        | some row => dictSet acc (pyUpper symbol) row
        | none => acc
      | none => acc)
    []

/-- `CoinGeckoClient.get_prices`.  The upstream oracle maps the `ids`
batch of a `simple/price` request to its outcome; requests are appended to
the log whether they succeed or fail.  On a cache hit or an empty id set
the upstream is not contacted; on any request failure the empty mapping is
returned and nothing is cached. -/
def get_prices (symbols vs_currencies : List String) (now : Int)
    (net : List String → HttpOutcome PriceData) (st : PCState) :
    PriceMap × PCState :=
  match cacheLookup st.cache (cacheKey symbols vs_currencies) now PRICE_CACHE_TTL with
  | some cached => (cached, st)
  | none =>
    if (coinIdsOf symbols).isEmpty then ([], st)
    else
      match net (coinIdsOf symbols) with
      | HttpOutcome.netErr _ =>
        ([], { st with upcalls := st.upcalls ++ [coinIdsOf symbols] })
      | HttpOutcome.ok data =>
        (buildResult symbols data,
          { cache := (cacheKey symbols vs_currencies, buildResult symbols data, now) :: st.cache
            upcalls := st.upcalls ++ [coinIdsOf symbols] })

/-- A concrete upstream payload used by closed evaluations of the cache. -/
def samplePriceData : PriceData :=
  [("bitcoin", [("usd", (50000 : ℚ))]), ("ethereum", [("usd", (4000 : ℚ))])]

/-- `CoinGeckoClient.get_price`: single-symbol convenience; `0` when the
symbol or currency is absent from the `get_prices` result. -/
def get_price (symbol vs_currency : String) (now : Int)
    (net : List String → HttpOutcome PriceData) (st : PCState) : ℚ × PCState :=
  match dictGet (get_prices [symbol] [vs_currency] now net st).1 (pyUpper symbol) with
  | none => (0, (get_prices [symbol] [vs_currency] now net st).2)
  | some row =>
    match dictGet row vs_currency with
    | none => (0, (get_prices [symbol] [vs_currency] now net st).2)
    | some p => (p, (get_prices [symbol] [vs_currency] now net st).2)

end WallAgg

namespace WallAgg

/-! ## Aggregator — `AccountManager`

Accounts are Python dicts; the structure below gives each key that the
account-manager code reads a field, `Option` where a key can be absent.
Refresh functions mutate the dict in place and also return it; the
embedding returns the outcome together with the post-state of the account
(and of the session store), the account being unchanged whenever the
exception is raised before the two assignment statements. -/

/-- The `data` entry of an account: wallet shape (`{'native', 'tokens'}`)
or exchange shape (a flat balance list). -/
inductive AccountData where
  | walletData (native : Option NativeHolding) (tokens : List TokenHolding)
  | exchangeData (balances : List ExchangeHolding)
deriving DecidableEq, Repr

/-- An account dict as built by `add_wallet_account` / `add_exchange_account`
(or loaded from the database, where `data` is `None`). -/
structure Account where
  id : String
  type : String
  name : String
  blockchain : Option String
  address : Option String
  exchange : Option String
  data : Option AccountData
  last_updated : Option Int
deriving DecidableEq, Repr

/-- The network environment one refresh runs against: the outcome of each
external interaction, per attempt where the retry wrapper can re-issue it. -/
structure NetEnv where
  ethNative : Nat → HttpOutcome EtherscanResp
  ethProbe : TokenProbe
  ethTokentx : Nat → HttpOutcome TokentxResp
  btcNet : Nat → HttpOutcome BlockchainInfoResp
  exchNet : Nat → Except PyExc (List (String × Option ℚ))

/-- `EthereumClient.get_wallet_data`: native balance, then token
discovery; either failure propagates. -/
def eth_get_wallet_data (address : String) (env : NetEnv) :
    Except PyExc AccountData := do
  let native ← (eth_get_native_balance address env.ethNative).1
  let tokens ← (eth_get_token_balances address env.ethProbe env.ethTokentx).1
  pure (AccountData.walletData (some native) tokens.1)

/-- `BitcoinClient.get_wallet_data`: native balance only, empty tokens. -/
def btc_get_wallet_data (address : String) (env : NetEnv) :
    Except PyExc AccountData := do
  let native ← (btc_get_native_balance address env.btcNet).1
  pure (AccountData.walletData (some native) [])

/-- `client.get_wallet_data(address)` for the client registered under
`blockchain`.  `AccountManager.__init__` only ever registers `ethereum`
and `bitcoin`; the fallback models an impossible lookup. -/
def get_wallet_data_for (blockchain address : String) (env : NetEnv) :
    Except PyExc AccountData :=
  if blockchain = "ethereum" then eth_get_wallet_data address env
  else if blockchain = "bitcoin" then btc_get_wallet_data address env
  else Except.error (PyExc.keyError blockchain)

/-- `AccountManager._refresh_wallet`.  `clients` is the key set of
`self.blockchain_clients` (`ethereum` is absent when its API key is not
configured).  On success `data` and `last_updated` are overwritten; on
any raise the account is untouched. -/
def refresh_wallet (acct : Account) (clients : List String) (env : NetEnv)
    (now : Int) : Except PyExc Unit × Account :=
  match acct.blockchain with
  | none => (Except.error (PyExc.keyError "blockchain"), acct)
  | some blockchain =>
    match acct.address with
    | none => (Except.error (PyExc.keyError "address"), acct)
    | some address =>
      if !clients.contains blockchain then
        (Except.error (PyExc.valueError
          ("Blockchain client not available for " ++ blockchain)), acct)
      else
        match get_wallet_data_for blockchain address env with
        | Except.error e => (Except.error e, acct)
        | Except.ok wd =>
          (Except.ok (), { acct with data := some wd, last_updated := some now })

/-- `AccountManager._refresh_exchange`: fetch the session credential
(failing with the session-expired `ValueError` when it is absent), rebuild
the exchange client, fetch fresh balances, then overwrite `data` and
`last_updated`.  On any raise the account is untouched. -/
def refresh_exchange (acct : Account) (sess : SessionSt) (now : Int)
    (env : NetEnv) : Except PyExc Unit × Account × SessionSt :=
  match get_credential now acct.id sess with
  | Except.error e => (Except.error e, acct, sess)
  | Except.ok (none, sess') =>
    (Except.error (PyExc.valueError
      ("Session expired for " ++ acct.name ++ ". Please re-enter API keys.")), acct, sess')
  | Except.ok (some _, sess') =>
    match acct.exchange with
    | none => (Except.error (PyExc.keyError "exchange"), acct, sess')
    | some ex =>
      match exchange_client_init ex with
      | Except.error e => (Except.error e, acct, sess')
      | Except.ok _ =>
        match (fetch_balances env.exchNet).1 with
        | Except.error e => (Except.error e, acct, sess')
        | Except.ok bals =>
          (Except.ok (),
            { acct with data := some (AccountData.exchangeData bals)
                        last_updated := some now },
            sess')

/-- `AccountManager.refresh_account_data`: dispatch on `account['type']`. -/
def refresh_account_data (acct : Account) (clients : List String)
    (sess : SessionSt) (now : Int) (env : NetEnv) :
    Except PyExc Unit × Account × SessionSt :=
  if acct.type = "wallet" then
    let r := refresh_wallet acct clients env now
    (r.1, r.2, sess)
  else if acct.type = "exchange" then
    refresh_exchange acct sess now env
  else
    (Except.error (PyExc.valueError ("Unknown account type: " ++ acct.type)), acct, sess)

/-- Fold one list of `(symbol, balance)` lines through `get_price`,
accumulating `total += balance * price` and threading the price-cache
state, exactly as the loops of `calculate_account_value` do.  (Python
float arithmetic is modelled as exact rational arithmetic here; no claim
about this function concerns rounding.) -/
def valuateLines (lines : List (String × ℚ)) (base_currency : String)
    (now : Int) (net : List String → HttpOutcome PriceData)
    (start : ℚ × PCState) : ℚ × PCState :=
  lines.foldl
    (fun acc p =>
      let r := get_price p.1 base_currency now net acc.2
      (acc.1 + p.2 * r.1, r.2))
    start

/-- `AccountManager.calculate_account_value`.  Every fall-through case
(`data` of `None`, mismatched shape, unknown type) yields `0.0` — in
Python either directly or through the enclosing `except` — and in each
such case no pricing call has been made, so the cache is unchanged. -/
def calculate_account_value (acct : Account) (base_currency : String)
    (now : Int) (net : List String → HttpOutcome PriceData) (st : PCState) :
    ℚ × PCState :=
  if acct.type = "wallet" then
    match acct.data with
    | some (AccountData.walletData native tokens) =>
      let start :=
        match native with
        | some n =>
          let r := get_price n.symbol base_currency now net st
          (n.balance * r.1, r.2)
        | none => ((0 : ℚ), st)
      valuateLines (tokens.map fun t => (t.symbol, t.balance)) base_currency now net start
    | _ => (0, st)
  else if acct.type = "exchange" then
    match acct.data with
    | some (AccountData.exchangeData bals) =>
      valuateLines (bals.map fun b => (b.symbol, b.balance)) base_currency now net (0, st)
    | _ => (0, st)
  else (0, st)

/-- All account fields other than `data` and `last_updated` agree: the
frame a refresh must preserve. -/
def framePreserved (a b : Account) : Prop :=
  b.id = a.id ∧ b.type = a.type ∧ b.name = a.name ∧
    b.blockchain = a.blockchain ∧ b.address = a.address ∧ b.exchange = a.exchange

end WallAgg

namespace WallAgg

/-! ## Claim C1 — session store expiry -/

/-- C1: evaluation of the session store around the timeout, on the store
holding credentials for `acct_A` and `acct_B` since time 0.  Within the
timeout, store-then-get returns the stored pair; at time 3601 a store is
rejected with the session-expired error, and the first `get_credential`
returns absent while clearing every credential.  But the clear leaves
`session_start` holding `None` (the key stays present in Streamlit session
state), so the claimed subsequent `get_credential` for the other account
id raises `TypeError` instead of returning absent: the claim is right
about the intended fail-closed behaviour and the code slips. -/
theorem c1_session_expiry_evaluation :
    store_credential 0 "acct_A" "keyA" "secretA"
        ⟨some (some "sid"), some (some 0), some []⟩ =
      Except.ok ⟨some (some "sid"), some (some 0),
        some [("acct_A", ⟨"keyA", "secretA", 0⟩)]⟩
    ∧ store_credential 0 "acct_B" "keyB" "secretB"
        ⟨some (some "sid"), some (some 0),
          some [("acct_A", ⟨"keyA", "secretA", 0⟩)]⟩ =
      Except.ok ⟨some (some "sid"), some (some 0),
        some [("acct_A", ⟨"keyA", "secretA", 0⟩),
              ("acct_B", ⟨"keyB", "secretB", 0⟩)]⟩
    ∧ get_credential 1800 "acct_A"
        ⟨some (some "sid"), some (some 0),
          some [("acct_A", ⟨"keyA", "secretA", 0⟩),
                ("acct_B", ⟨"keyB", "secretB", 0⟩)]⟩ =
      Except.ok (some ⟨"keyA", "secretA", 0⟩,
        ⟨some (some "sid"), some (some 0),
          some [("acct_A", ⟨"keyA", "secretA", 0⟩),
                ("acct_B", ⟨"keyB", "secretB", 0⟩)]⟩)
    ∧ store_credential 3601 "acct_C" "keyC" "secretC"
        ⟨some (some "sid"), some (some 0),
          some [("acct_A", ⟨"keyA", "secretA", 0⟩),
                ("acct_B", ⟨"keyB", "secretB", 0⟩)]⟩ =
      Except.error (PyExc.valueError "Session expired")
    ∧ get_credential 3601 "acct_A"
        ⟨some (some "sid"), some (some 0),
          some [("acct_A", ⟨"keyA", "secretA", 0⟩),
                ("acct_B", ⟨"keyB", "secretB", 0⟩)]⟩ =
      Except.ok (none, ⟨some none, some none, some []⟩)
    ∧ get_credential 3601 "acct_B" ⟨some none, some none, some []⟩ =
      Except.error (PyExc.typeError
        "unsupported operand type(s) for -: datetime and NoneType") :=
  ⟨rfl, rfl, rfl, rfl, rfl, rfl⟩

end WallAgg

namespace WallAgg

/-! ## Claim C10 — refresh mutates only `data` and `last_updated` -/

theorem framePreserved_refl (a : Account) : framePreserved a a :=
  ⟨rfl, rfl, rfl, rfl, rfl, rfl⟩

theorem framePreserved_update (a : Account) (d : Option AccountData)
    (t : Option Int) :
    framePreserved a { a with data := d, last_updated := t } :=
  ⟨rfl, rfl, rfl, rfl, rfl, rfl⟩

theorem refresh_wallet_frame (acct : Account) (clients : List String)
    (env : NetEnv) (now : Int) :
    framePreserved acct (refresh_wallet acct clients env now).2 := by
  unfold refresh_wallet
  repeat' split
  all_goals simp [framePreserved]

theorem refresh_exchange_frame (acct : Account) (sess : SessionSt)
    (now : Int) (env : NetEnv) :
    framePreserved acct (refresh_exchange acct sess now env).2.1 := by
  unfold refresh_exchange
  repeat' split
  all_goals simp [framePreserved]

/-- C10: whatever the outcome, `refresh_account_data` leaves the
account's `id`, `type`, `name`, `blockchain`, `address` and `exchange`
fields exactly as they were — only `data` and `last_updated` can change. -/
theorem c10_refresh_frame (acct : Account) (clients : List String)
    (sess : SessionSt) (now : Int) (env : NetEnv) :
    framePreserved acct (refresh_account_data acct clients sess now env).2.1 := by
  unfold refresh_account_data
  by_cases hw : acct.type = "wallet"
  · simp only [hw, if_pos]
    exact refresh_wallet_frame acct clients env now
  · simp only [hw, if_neg, if_false]
    by_cases he : acct.type = "exchange"
    · simp only [he, if_pos]
      exact refresh_exchange_frame acct sess now env
    · simp only [he, if_neg, if_false]
      exact framePreserved_refl acct

end WallAgg

namespace WallAgg

/-! ## Claim C9 — Ethereum address validation -/

theorem consumeHex_some_iff (n : Nat) (cs rest : List Char) :
    consumeHex n cs = some rest ↔
      ∃ pre, cs = pre ++ rest ∧ pre.length = n ∧ pre.all isHexDigit = true := by
  induction n generalizing cs with
  | zero =>
    simp only [consumeHex, Option.some.injEq]
    constructor
    · intro h
      exact ⟨[], by simp [h], rfl, rfl⟩
    · rintro ⟨pre, hcs, hlen, -⟩
      have hnil : pre = [] := List.length_eq_zero.mp hlen
      subst hnil
      simpa using hcs
  | succ n ih =>
    cases cs with
    | nil =>
      constructor
      · intro h
        simp [consumeHex] at h
      · rintro ⟨pre, hcs, hlen, -⟩
        have hl := congrArg List.length hcs
        simp at hl
        omega
    | cons c cs' =>
      by_cases h : isHexDigit c = true
      · rw [show consumeHex (n + 1) (c :: cs') = consumeHex n cs' by
          simp [consumeHex, h], ih]
        constructor
        · rintro ⟨pre, hcs, hlen, hall⟩
          exact ⟨c :: pre, by simp [hcs], by simp [hlen],
            by simp [List.all_cons, h, hall]⟩
        · rintro ⟨pre, hcs, hlen, hall⟩
          cases pre with
          | nil => simp at hlen
          | cons p ps =>
            simp only [List.cons_append, List.cons.injEq] at hcs
            obtain ⟨-, hcs2⟩ := hcs
            simp only [List.all_cons, Bool.and_eq_true] at hall
            exact ⟨ps, hcs2, by simpa using hlen, hall.2⟩
      · constructor
        · intro hcontra
          simp [consumeHex, h] at hcontra
        · rintro ⟨pre, hcs, hlen, hall⟩
          cases pre with
          | nil => simp at hlen
          | cons p ps =>
            simp only [List.cons_append, List.cons.injEq] at hcs
            simp only [List.all_cons, Bool.and_eq_true] at hall
            exact absurd (hcs.1 ▸ hall.1) h

theorem hex_tail_match_iff (rest : List Char) :
    (match consumeHex 40 rest with
      | none => false
      | some r => pyDollar r) = true ↔
      ((rest.length = 40 ∧ rest.all isHexDigit = true) ∨
        ∃ pre, rest = pre ++ ['\n'] ∧ pre.length = 40 ∧ pre.all isHexDigit = true) := by
  cases hc : consumeHex 40 rest with
  | none =>
    simp only [Bool.false_eq_true, false_iff]
    rintro (⟨hlen, hall⟩ | ⟨pre, hpre, hlen, hall⟩)
    · have : consumeHex 40 rest = some [] :=
        (consumeHex_some_iff 40 rest []).mpr ⟨rest, by simp, hlen, hall⟩
      simp [hc] at this
    · have : consumeHex 40 rest = some ['\n'] :=
        (consumeHex_some_iff 40 rest ['\n']).mpr ⟨pre, hpre, hlen, hall⟩
      simp [hc] at this
  | some r =>
    obtain ⟨pre, hcs, hlen, hall⟩ := (consumeHex_some_iff 40 rest r).mp hc
    simp only [pyDollar, Bool.or_eq_true, beq_iff_eq]
    constructor
    · rintro (hr | hr) <;> subst hr
      · exact Or.inl ⟨by simpa using hcs ▸ hlen ▸ (by simp [hcs, hlen]), by
          simpa [hcs] using hall⟩
      · exact Or.inr ⟨pre, hcs, hlen, hall⟩
    · rintro (⟨hlen40, hall40⟩ | ⟨pre', hpre', hlen', hall'⟩)
      · left
        have : consumeHex 40 rest = some [] :=
          (consumeHex_some_iff 40 rest []).mpr ⟨rest, by simp, hlen40, hall40⟩
        rw [hc] at this
        simpa using this
      · right
        have : consumeHex 40 rest = some ['\n'] :=
          (consumeHex_some_iff 40 rest ['\n']).mpr ⟨pre', hpre', hlen', hall'⟩
        rw [hc] at this
        simpa using this

theorem eth_regex_match_iff (cs : List Char) :
    eth_regex_match cs = true ↔
      (specEthShape cs = true ∨
        ∃ pre, cs = pre ++ ['\n'] ∧ specEthShape pre = true) := by
  cases cs with
  | nil =>
    simp only [eth_regex_match, specEthShape, Bool.false_eq_true, false_iff]
    rintro (h | ⟨pre, hpre, -⟩)
    · exact absurd h (by simp)
    · exact absurd (congrArg List.length hpre) (by simp)
  | cons c0 cs0 =>
    cases cs0 with
    | nil =>
      simp only [eth_regex_match, specEthShape, Bool.false_eq_true, false_iff]
      rintro (h | ⟨pre, hpre, hspec⟩)
      · exact absurd h (by simp)
      · cases pre with
        | nil => simp [specEthShape] at hspec
        | cons p ps =>
          have := congrArg List.length hpre
          simp at this
    | cons c1 rest =>
      simp only [eth_regex_match, specEthShape, Bool.and_eq_true, beq_iff_eq]
      rw [and_assoc, hex_tail_match_iff]
      constructor
      · rintro ⟨h0, h1, (⟨hlen, hall⟩ | ⟨pre, hpre, hlen, hall⟩)⟩
        · exact Or.inl (by simp [h0, h1, hlen, hall])
        · refine Or.inr ⟨c0 :: c1 :: pre, by simp [hpre], ?_⟩
          simp [specEthShape, h0, h1, hlen, hall]
      · rintro (h | ⟨pre, hpre, hspec⟩)
        · obtain ⟨⟨⟨h0, h1⟩, hlen⟩, hall⟩ := h
          exact ⟨h0, h1, Or.inl ⟨hlen, hall⟩⟩
        · cases pre with
          | nil => simp [specEthShape] at hspec
          | cons p0 ps =>
            cases ps with
            | nil => simp [specEthShape] at hspec
            | cons p1 prest =>
              simp only [specEthShape, Bool.and_eq_true, beq_iff_eq] at hspec
              obtain ⟨⟨⟨h0, h1⟩, hlen⟩, hall⟩ := hspec
              simp only [List.cons_append, List.cons.injEq] at hpre
              obtain ⟨hc0, hc1, hrest⟩ := hpre
              exact ⟨hc0.trans h0, hc1.trans h1, Or.inr ⟨prest, hrest, hlen, hall⟩⟩

/-- C9 (amended): `validate_address` returns true exactly on strings of
the form `0x` + 40 hex characters, **or that same form followed by one
trailing newline** — `re.match` with a `$`-terminated pattern accepts a
single final `'\n'` — and returns false on every other string. -/
theorem c9_eth_validate_characterization (s : String) :
    eth_validate_address s = true ↔
      (specEthShape s.data = true ∨
        ∃ pre, s.data = pre ++ ['\n'] ∧ specEthShape pre = true) := by
  unfold eth_validate_address validate_eth_address
  by_cases hs : s = ""
  · subst hs
    rw [← eth_regex_match_iff]
    simp [eth_regex_match]
  · cases hm : eth_regex_match s.data with
    | false =>
      rw [← eth_regex_match_iff, hm]
      simp [hs, hm]
    | true =>
      simp only [hs, if_false, hm, Bool.not_true, if_neg, Bool.false_eq_true,
        not_false_eq_true]
      simpa using (eth_regex_match_iff s.data).mp hm

/-- C9 (counterexample): `0x` + 40 hex characters + a trailing newline is
not of the claimed shape, yet `validate_address` accepts it. -/
theorem c9_trailing_newline_accepted :
    eth_validate_address "0xaaaaaaaaaaaaaaaaaaaaaaaaaaaaaaaaaaaaaaaa\n" = true ∧
      specEthShape "0xaaaaaaaaaaaaaaaaaaaaaaaaaaaaaaaaaaaaaaaa\n".data = false := by
  exact ⟨by decide, by decide⟩

end WallAgg

namespace WallAgg

/-! ## Claims C2 and C3 — the retry wrapper -/

/-- One unfolding step of the retry loop when at least one more attempt
remains. -/
theorem tenacityRun_succ {α : Type} (body : Nat → Except PyExc α × Nat)
    (a fuel : Nat) :
    tenacityRun body a (fuel + 1) =
      match body a with
      | (Except.ok v, reqs) => (Except.ok v, 1, reqs)
      | (Except.error e, reqs) =>
        match fuel with
        | 0 => (Except.error (PyExc.retryError e), 1, reqs)
        | _ + 1 =>
          let r := tenacityRun body (a + 1) fuel
          (r.1, r.2.1 + 1, reqs + r.2.2) :=
  rfl

/-- A call whose first attempt succeeds consumes exactly one attempt. -/
theorem tenacityCall_first_ok {α : Type} (body : Nat → Except PyExc α × Nat)
    (v : α) (reqs : Nat) (h : body 1 = (Except.ok v, reqs)) :
    tenacityCall body = (Except.ok v, 1, reqs) := by
  unfold tenacityCall
  rw [show (3 : Nat) = 2 + 1 from rfl, tenacityRun_succ, h]

/-- When every attempt fails with the same error and issues no request,
the retry loop runs all its attempts and raises the wrapped error. -/
theorem tenacityRun_all_error {α : Type} (body : Nat → Except PyExc α × Nat)
    (e : PyExc) (hbody : ∀ i, body i = (Except.error e, 0)) :
    ∀ fuel a, 1 ≤ fuel →
      tenacityRun body a fuel = (Except.error (PyExc.retryError e), fuel, 0) := by
  intro fuel
  induction fuel with
  | zero => intro a h; omega
  | succ f ih =>
    intro a h
    cases f with
    | zero =>
      rw [tenacityRun_succ, hbody a]
    | succ f' =>
      have hr := ih (a + 1) (by omega)
      rw [tenacityRun_succ, hbody a]
      dsimp only
      rw [hr]
      rfl

/-- When attempt `i` fails with error `errs i` after one request each, the
retry loop raises the wrap of the **last** attempt's error and issues one
request per attempt. -/
theorem tenacityRun_last_error {α : Type} (body : Nat → Except PyExc α × Nat)
    (errs : Nat → PyExc) (hbody : ∀ i, body i = (Except.error (errs i), 1)) :
    ∀ fuel a, 1 ≤ fuel →
      tenacityRun body a fuel =
        (Except.error (PyExc.retryError (errs (a + fuel - 1))), fuel, fuel) := by
  intro fuel
  induction fuel with
  | zero => intro a h; omega
  | succ f ih =>
    intro a h
    cases f with
    | zero =>
      rw [tenacityRun_succ, hbody a]
      simp
    | succ f' =>
      have hr := ih (a + 1) (by omega)
      have harith : a + 1 + (f' + 1) - 1 = a + (f' + 1 + 1) - 1 := by omega
      rw [harith] at hr
      rw [tenacityRun_succ, hbody a]
      dsimp only
      rw [hr]
      simp [Nat.add_comm]

/-- C2 (counterexample): a malformed address given to
`EthereumClient.get_native_balance` is *retried*: the call fails only
after all 3 attempts (not after exactly one), and what reaches the caller
is `RetryError` wrapping the invalid-address error, not that error itself.
(No network request is ever issued, as the claim also says.) -/
theorem c2_invalid_address_retried :
    eth_get_native_balance "notanaddress" (fun _ => HttpOutcome.netErr "unreachable") =
      (Except.error (PyExc.retryError
        (PyExc.valueError "Invalid Ethereum address: notanaddress")), 3, 0)
    ∧ (3 : Nat) ≠ 1 := by
  exact ⟨rfl, by decide⟩

/-- C2 (amended): for every malformed address, the balance call issues no
network request on any attempt, but the invalid-address error is **not**
short-circuited: the `tenacity` wrapper (which has no non-retryable
filter) re-runs the failing validation on all 3 attempts and then raises
`RetryError` wrapping the invalid-address error.  Both for the Ethereum
and the Bitcoin provider. -/
theorem c2_invalid_address_behaviour :
    (∀ (address : String) (net : Nat → HttpOutcome EtherscanResp),
      eth_validate_address address = false →
      eth_get_native_balance address net =
        (Except.error (PyExc.retryError
          (PyExc.valueError ("Invalid Ethereum address: " ++ address))), 3, 0))
    ∧ (∀ (address : String) (net : Nat → HttpOutcome BlockchainInfoResp),
      btc_validate_address address = false →
      btc_get_native_balance address net =
        (Except.error (PyExc.retryError
          (PyExc.valueError ("Invalid Bitcoin address: " ++ address))), 3, 0)) := by
  constructor
  · intro address net hval
    have hbody : ∀ i, eth_native_body address net i =
        (Except.error (PyExc.valueError ("Invalid Ethereum address: " ++ address)), 0) := by
      intro i
      simp [eth_native_body, hval]
    exact tenacityRun_all_error _ _ hbody 3 1 (by omega)
  · intro address net hval
    have hbody : ∀ i, btc_native_body address net i =
        (Except.error (PyExc.valueError ("Invalid Bitcoin address: " ++ address)), 0) := by
      intro i
      simp [btc_native_body, hval]
    exact tenacityRun_all_error _ _ hbody 3 1 (by omega)

/-- C2 (witness): the amended behaviour at the concrete malformed address
`"zz"`, for both providers. -/
theorem c2_invalid_address_behaviour_witness :
    eth_get_native_balance "zz" (fun _ => HttpOutcome.netErr "n") =
      (Except.error (PyExc.retryError
        (PyExc.valueError "Invalid Ethereum address: zz")), 3, 0)
    ∧ btc_get_native_balance "zz" (fun _ => HttpOutcome.netErr "n") =
      (Except.error (PyExc.retryError
        (PyExc.valueError "Invalid Bitcoin address: zz")), 3, 0) :=
  ⟨c2_invalid_address_behaviour.1 "zz" (fun _ => HttpOutcome.netErr "n") (by decide),
   c2_invalid_address_behaviour.2 "zz" (fun _ => HttpOutcome.netErr "n") (by decide)⟩

/-- C3 (counterexample): when every attempt of
`ExchangeClient.fetch_balances` fails, what reaches the caller is the
`RetryError` wrapper, not the last underlying error unchanged. -/
theorem c3_wrapper_not_bare_error :
    (fetch_balances (fun _ => Except.error (PyExc.exchangeError "exchange is down"))).1 =
      Except.error (PyExc.retryError (PyExc.exchangeError "exchange is down"))
    ∧ (fetch_balances (fun _ => Except.error (PyExc.exchangeError "exchange is down"))).1 ≠
      Except.error (PyExc.exchangeError "exchange is down") := by
  refine ⟨rfl, fun h => ?_⟩
  rw [show (fetch_balances (fun _ => Except.error (PyExc.exchangeError "exchange is down"))).1 =
    Except.error (PyExc.retryError (PyExc.exchangeError "exchange is down")) from rfl] at h
  simp at h

/-- C3 (amended): on exhaustion of all 3 attempts the retry wrapper raises
`tenacity.RetryError` *wrapping the last underlying error intact* — the
real root cause is preserved inside the wrapper (callers reach it through
`last_attempt`, as the UI layer does), but the surfaced exception is the
wrapper, not the underlying error itself.  Shown for the exchange balance
fetch with arbitrary per-attempt errors, and for the Ethereum native
balance when every attempt hits a transport failure. -/
theorem c3_last_error_wrapped :
    (∀ (errs : Nat → PyExc) (net : Nat → Except PyExc (List (String × Option ℚ))),
      (∀ i, net i = Except.error (errs i)) →
      fetch_balances net = (Except.error (PyExc.retryError (errs 3)), 3, 3))
    ∧ (∀ (address : String) (net : Nat → HttpOutcome EtherscanResp),
      eth_validate_address address = true →
      (∀ i, ∃ m, net i = HttpOutcome.netErr m) →
      eth_get_native_balance address net =
        (Except.error (PyExc.retryError (PyExc.valueError
          "Network error: Unable to connect to Etherscan API. Please check your internet connection")), 3, 3)) := by
  constructor
  · intro errs net hnet
    have hbody : ∀ i, exchange_fetch_body net i = (Except.error (errs i), 1) := by
      intro i
      simp [exchange_fetch_body, hnet i]
    have := tenacityRun_last_error _ errs hbody 3 1 (by omega)
    simpa using this
  · intro address net hval hnet
    have hbody : ∀ i, eth_native_body address net i =
        (Except.error (PyExc.valueError
          "Network error: Unable to connect to Etherscan API. Please check your internet connection"), 1) := by
      intro i
      obtain ⟨m, hm⟩ := hnet i
      simp [eth_native_body, hval, hm]
    have := tenacityRun_last_error _
      (fun _ => PyExc.valueError
        "Network error: Unable to connect to Etherscan API. Please check your internet connection")
      hbody 3 1 (by omega)
    simpa using this

/-- C3 (witness): the amended behaviour on concrete failing oracles. -/
theorem c3_last_error_wrapped_witness :
    fetch_balances (fun i => Except.error (PyExc.exchangeError (toString i))) =
      (Except.error (PyExc.retryError (PyExc.exchangeError "3")), 3, 3)
    ∧ eth_get_native_balance "0xaaaaaaaaaaaaaaaaaaaaaaaaaaaaaaaaaaaaaaaa"
        (fun _ => HttpOutcome.netErr "connection refused") =
      (Except.error (PyExc.retryError (PyExc.valueError
        "Network error: Unable to connect to Etherscan API. Please check your internet connection")), 3, 3) :=
  ⟨c3_last_error_wrapped.1 (fun i => PyExc.exchangeError (toString i))
      (fun i => Except.error (PyExc.exchangeError (toString i))) (fun _ => rfl),
   c3_last_error_wrapped.2 "0xaaaaaaaaaaaaaaaaaaaaaaaaaaaaaaaaaaaaaaaa"
      (fun _ => HttpOutcome.netErr "connection refused") (by decide)
      (fun _ => ⟨"connection refused", rfl⟩)⟩

end WallAgg

namespace WallAgg

/-! ## Claim C8 — smallest-unit round trip through the float conversion -/

theorem rne_eval_low {q : ℚ} {n : ℤ} (h1 : (n : ℚ) ≤ q)
    (h2 : q < (n : ℚ) + 1 / 2) : rne q = n := by
  have hf : ⌊q⌋ = n := by
    rw [Int.floor_eq_iff]
    constructor
    · exact h1
    · linarith
  unfold rne
  rw [hf, if_pos (by linarith)]

theorem int_log2_eq {q : ℚ} {e : ℤ} (hq : 0 < q)
    (h1 : (2 : ℚ) ^ e ≤ q) (h2 : q < (2 : ℚ) ^ (e + 1)) :
    Int.log 2 q = e := by
  have h1' : ((2 : ℕ) : ℚ) ^ e ≤ q := by exact_mod_cast h1
  have h2' : q < ((2 : ℕ) : ℚ) ^ (e + 1) := by exact_mod_cast h2
  have hl := (Int.zpow_le_iff_le_log (by norm_num) hq).mp h1'
  have hu := (Int.lt_zpow_iff_log_lt (by norm_num) hq).mp h2'
  omega

theorem fl64_of_log {q : ℚ} (hq : 0 < q) {e : ℤ} (hlog : Int.log 2 q = e) :
    fl64 q = (rne (q / 2 ^ (e - 52)) : ℚ) * 2 ^ (e - 52) := by
  unfold fl64 fl64pos
  rw [if_neg (ne_of_gt hq), if_pos hq, hlog]

/-- `1 ETH + 3 wei` rounds to the double holding exactly `10 ^ 18`: three
wei vanish already when the integer is converted to binary64 (the unit in
the last place near `10 ^ 18` is `2 ^ 7 = 128`). -/
theorem fl64_wei_plus_three : fl64 ((10 : ℚ) ^ 18 + 3) = 10 ^ 18 := by
  have hlog : Int.log 2 ((10 : ℚ) ^ 18 + 3) = 59 :=
    int_log2_eq (by norm_num) (by norm_num) (by norm_num)
  rw [fl64_of_log (by norm_num) hlog]
  have h7 : (59 : ℤ) - 52 = 7 := by norm_num
  rw [h7]
  have hz : (2 : ℚ) ^ (7 : ℤ) = 128 := by norm_num
  rw [hz]
  rw [show rne (((10 : ℚ) ^ 18 + 3) / 128) = 7812500000000000 from
    rne_eval_low (by norm_num) (by norm_num)]
  norm_num

/-- `10 ^ 18` is exactly representable in binary64 (it has only 42
significant bits), so the literal `1e18` is exactly `10 ^ 18`. -/
theorem fl64_1e18 : fl64 ((10 : ℚ) ^ 18) = 10 ^ 18 := by
  have hlog : Int.log 2 ((10 : ℚ) ^ 18) = 59 :=
    int_log2_eq (by norm_num) (by norm_num) (by norm_num)
  rw [fl64_of_log (by norm_num) hlog]
  have h7 : (59 : ℤ) - 52 = 7 := by norm_num
  rw [h7]
  have hz : (2 : ℚ) ^ (7 : ℤ) = 128 := by norm_num
  rw [hz]
  rw [show rne (((10 : ℚ) ^ 18) / 128) = 7812500000000000 from
    rne_eval_low (by norm_num) (by norm_num)]
  norm_num

theorem fl64_one : fl64 (1 : ℚ) = 1 := by
  rw [fl64_of_log one_pos (Int.log_one_right 2)]
  have h52 : (0 : ℤ) - 52 = -52 := by norm_num
  rw [h52]
  have hz : (2 : ℚ) ^ (-52 : ℤ) = 1 / 4503599627370496 := by
    rw [zpow_neg]
    norm_num
  rw [hz]
  rw [show rne ((1 : ℚ) / (1 / 4503599627370496)) = 4503599627370496 from
    rne_eval_low (by norm_num) (by norm_num)]
  norm_num

/-- C8: evaluation of the Ethereum native-balance conversion at the raw
balance `1000000000000000003` wei (1 ETH + 3 wei, decimals 18).  The code
computes `balance_wei / 1e18` in binary64, which yields exactly `1.0`;
multiplying back by the fixed divisor `10 ^ 18` gives `10 ^ 18`, i.e. the
round trip loses 3 wei — more than the smallest representable unit — on a
perfectly realistic balance.  The spec forbids exactly this ("fixed
per-asset divisor, not floating shortcuts"): the claim is right and the
float-division code is the slip. -/
theorem c8_wei_round_trip_loses_precision :
    (eth_get_native_balance "0xaaaaaaaaaaaaaaaaaaaaaaaaaaaaaaaaaaaaaaaa"
        (fun _ => HttpOutcome.ok ⟨"1", "OK", "1000000000000000003"⟩)).1 =
      Except.ok ⟨"ETH", 1, "0xaaaaaaaaaaaaaaaaaaaaaaaaaaaaaaaaaaaaaaaa"⟩
    ∧ (1 : ℚ) * 10 ^ 18 = 10 ^ 18
    ∧ (1000000000000000003 : ℚ) - 10 ^ 18 = 3 := by
  refine ⟨?_, by norm_num, by norm_num⟩
  have h1 : (eth_get_native_balance "0xaaaaaaaaaaaaaaaaaaaaaaaaaaaaaaaaaaaaaaaa"
      (fun _ => HttpOutcome.ok ⟨"1", "OK", "1000000000000000003"⟩)).1 =
      Except.ok ⟨"ETH",
        pyFloatDiv ((1000000000000000003 : ℤ) : ℚ) ((10 : ℚ) ^ (18 : Nat)),
        "0xaaaaaaaaaaaaaaaaaaaaaaaaaaaaaaaaaaaaaaaa"⟩ := rfl
  rw [h1]
  have hA : ((1000000000000000003 : ℤ) : ℚ) = 10 ^ 18 + 3 := by norm_num
  have h2 : pyFloatDiv ((1000000000000000003 : ℤ) : ℚ) ((10 : ℚ) ^ (18 : Nat)) = 1 := by
    unfold pyFloatDiv
    rw [hA]
    rw [show ((10 : ℚ) ^ (18 : Nat)) = (10 : ℚ) ^ 18 from rfl]
    rw [fl64_wei_plus_three, fl64_1e18]
    rw [show ((10 : ℚ) ^ 18) / 10 ^ 18 = 1 by norm_num]
    exact fl64_one
  rw [h2]

end WallAgg

namespace WallAgg

/-! ## Claim C4 — the price cache -/

/-- A cold `get_prices(["BTC"], ["usd"])` call: one upstream batch for
`["bitcoin"]`, the result cached under the batch-shaped key `"BTC:usd"`. -/
theorem get_prices_btc_cold (d : PriceData) :
    get_prices ["BTC"] ["usd"] 0 (fun _ => HttpOutcome.ok d) PCState.empty =
      (buildResult ["BTC"] d,
        ⟨[("BTC:usd", buildResult ["BTC"] d, 0)], [["bitcoin"]]⟩) :=
  rfl

/-- Repeating the identically shaped call while the entry is younger than
the ttl is served from the cache: no upstream contact, state unchanged. -/
theorem get_prices_btc_hit (d : PriceData) (τ : Int) (hτ : τ < 60) :
    get_prices ["BTC"] ["usd"] τ (fun _ => HttpOutcome.ok d)
        ⟨[("BTC:usd", buildResult ["BTC"] d, 0)], [["bitcoin"]]⟩ =
      (buildResult ["BTC"] d,
        ⟨[("BTC:usd", buildResult ["BTC"] d, 0)], [["bitcoin"]]⟩) := by
  have hlook : cacheLookup [("BTC:usd", buildResult ["BTC"] d, 0)] "BTC:usd" τ
      PRICE_CACHE_TTL = some (buildResult ["BTC"] d) := by
    unfold cacheLookup
    rw [if_pos]
    simp [PRICE_CACHE_TTL]
    omega
  simp only [get_prices]
  rw [show cacheKey ["BTC"] ["usd"] = "BTC:usd" from rfl]
  rw [hlook]

/-- Repeating the identically shaped call once the entry has reached the
ttl misses the cache and issues a second upstream batch. -/
theorem get_prices_btc_expired (d : PriceData) (τ : Int) (hτ : 60 ≤ τ) :
    get_prices ["BTC"] ["usd"] τ (fun _ => HttpOutcome.ok d)
        ⟨[("BTC:usd", buildResult ["BTC"] d, 0)], [["bitcoin"]]⟩ =
      (buildResult ["BTC"] d,
        ⟨[("BTC:usd", buildResult ["BTC"] d, τ), ("BTC:usd", buildResult ["BTC"] d, 0)],
          [["bitcoin"], ["bitcoin"]]⟩) := by
  have hlook : cacheLookup [("BTC:usd", buildResult ["BTC"] d, 0)] "BTC:usd" τ
      PRICE_CACHE_TTL = none := by
    unfold cacheLookup
    rw [if_neg]
    · rfl
    · simp [PRICE_CACHE_TTL]
      omega
  simp only [get_prices]
  rw [show cacheKey ["BTC"] ["usd"] = "BTC:usd" from rfl]
  rw [hlook]
  rfl

/-- C4 (amended): the cache does **not** collapse batch results to
per-symbol-per-currency entries — it is keyed by the whole sorted
symbol-set/currency-set string, so a cached price is reused only by an
identically shaped later request.  An identical `get_prices(["BTC"],
["usd"])` repeated within the ttl is answered from cache with exactly one
upstream batch overall, repeated at or after the ttl it triggers a second
upstream batch, and a differently shaped request (`["BTC", "ETH"]`)
within the ttl misses the cache and re-requests `bitcoin` upstream even
though a fresh `BTC`/`usd` price is cached. -/
theorem c4_exact_key_caching :
    (∀ (d : PriceData) (τ : Int), τ < 60 →
      get_prices ["BTC"] ["usd"] τ (fun _ => HttpOutcome.ok d)
          (get_prices ["BTC"] ["usd"] 0 (fun _ => HttpOutcome.ok d) PCState.empty).2 =
        (buildResult ["BTC"] d,
          (get_prices ["BTC"] ["usd"] 0 (fun _ => HttpOutcome.ok d) PCState.empty).2)
      ∧ (get_prices ["BTC"] ["usd"] 0 (fun _ => HttpOutcome.ok d) PCState.empty).2.upcalls =
        [["bitcoin"]])
    ∧ (∀ (d : PriceData) (τ : Int), 60 ≤ τ →
      (get_prices ["BTC"] ["usd"] τ (fun _ => HttpOutcome.ok d)
          (get_prices ["BTC"] ["usd"] 0 (fun _ => HttpOutcome.ok d) PCState.empty).2).2.upcalls =
        [["bitcoin"], ["bitcoin"]])
    ∧ (∀ d : PriceData,
      (get_prices ["BTC", "ETH"] ["usd"] 10 (fun _ => HttpOutcome.ok d)
          (get_prices ["BTC"] ["usd"] 0 (fun _ => HttpOutcome.ok d) PCState.empty).2).2.upcalls =
        [["bitcoin"], ["bitcoin", "ethereum"]]) := by
  refine ⟨fun d τ hτ => ⟨?_, ?_⟩, fun d τ hτ => ?_, fun d => ?_⟩
  · rw [get_prices_btc_cold d]
    exact get_prices_btc_hit d τ hτ
  · rw [get_prices_btc_cold d]
  · rw [get_prices_btc_cold d]
    rw [show ((buildResult ["BTC"] d,
      (⟨[("BTC:usd", buildResult ["BTC"] d, 0)], [["bitcoin"]]⟩ : PCState)).2) =
      (⟨[("BTC:usd", buildResult ["BTC"] d, 0)], [["bitcoin"]]⟩ : PCState) from rfl]
    rw [get_prices_btc_expired d τ hτ]
  · rw [get_prices_btc_cold d]
    rfl

/-- C4 (counterexample): the `BTC`/`usd` price is fetched at time 0 and
again — inside the differently shaped batch `["BTC", "ETH"]` — at time 10,
well within the 60-second ttl; yet the upstream is contacted twice with
`bitcoin` in the batch, where the claim allows exactly one upstream batch
call for a price fetched twice within the ttl. -/
theorem c4_no_per_symbol_collapse :
    (get_prices ["BTC", "ETH"] ["usd"] 10 (fun _ => HttpOutcome.ok samplePriceData)
        (get_prices ["BTC"] ["usd"] 0
          (fun _ => HttpOutcome.ok samplePriceData) PCState.empty).2).2.upcalls =
      [["bitcoin"], ["bitcoin", "ethereum"]]
    ∧ [["bitcoin"], ["bitcoin", "ethereum"]].countP
        (fun ids => ids.contains "bitcoin") = 2
    ∧ (2 : Nat) ≠ 1 :=
  ⟨rfl, by decide, by decide⟩

/-- C4 (witness): the amended behaviour at a concrete payload and
concrete times 10 (inside the ttl) and 60 (at the ttl). -/
theorem c4_exact_key_caching_witness :
    (get_prices ["BTC"] ["usd"] 10 (fun _ => HttpOutcome.ok samplePriceData)
        (get_prices ["BTC"] ["usd"] 0
          (fun _ => HttpOutcome.ok samplePriceData) PCState.empty).2 =
      (buildResult ["BTC"] samplePriceData,
        (get_prices ["BTC"] ["usd"] 0
          (fun _ => HttpOutcome.ok samplePriceData) PCState.empty).2)
      ∧ (get_prices ["BTC"] ["usd"] 0
          (fun _ => HttpOutcome.ok samplePriceData) PCState.empty).2.upcalls =
        [["bitcoin"]])
    ∧ (get_prices ["BTC"] ["usd"] 60 (fun _ => HttpOutcome.ok samplePriceData)
        (get_prices ["BTC"] ["usd"] 0
          (fun _ => HttpOutcome.ok samplePriceData) PCState.empty).2).2.upcalls =
      [["bitcoin"], ["bitcoin"]] :=
  ⟨c4_exact_key_caching.1 samplePriceData 10 (by norm_num),
   c4_exact_key_caching.2.1 samplePriceData 60 (by norm_num)⟩

end WallAgg

namespace WallAgg

/-! ## Claim C5 — unpriced holdings contribute zero -/

theorem cacheKey_single (x b : String) : cacheKey [x] [b] = x ++ ":" ++ b :=
  rfl

theorem string_append_cancel_right {a b s : String} (h : a ++ s = b ++ s) :
    a = b := by
  have hd : a.data ++ s.data = b.data ++ s.data := congrArg String.data h
  exact congrArg String.mk (List.append_cancel_right hd)

theorem cacheKey_single_inj {x y b : String}
    (hk : cacheKey [x] [b] = cacheKey [y] [b]) : x = y := by
  rw [cacheKey_single, cacheKey_single] at hk
  exact string_append_cancel_right (string_append_cancel_right hk)

theorem coinIdsOf_single_none {symbol : String}
    (h : dictGet SYMBOL_TO_ID (pyUpper symbol) = none) :
    coinIdsOf [symbol] = [] := by
  simp [coinIdsOf, h]

theorem coinIdsOf_single_ne_nil {symbol : String}
    (h : ¬(coinIdsOf [symbol]).isEmpty = true) :
    ∃ cid, dictGet SYMBOL_TO_ID (pyUpper symbol) = some cid := by
  cases hm : dictGet SYMBOL_TO_ID (pyUpper symbol) with
  | none => exact absurd (by simp [coinIdsOf_single_none hm]) h
  | some cid => exact ⟨cid, rfl⟩

/-- An unmapped symbol with no stale cache entry prices to `0`, leaving
the cache untouched: `get_prices` finds no coin id, skips the upstream,
and returns the empty mapping, whose lookups default to `0`. -/
theorem get_price_unmapped (symbol b : String) (now : Int)
    (net : List String → HttpOutcome PriceData) (st : PCState)
    (hmap : dictGet SYMBOL_TO_ID (pyUpper symbol) = none)
    (hmiss : cacheMissFor st symbol b now) :
    get_price symbol b now net st = (0, st) := by
  unfold cacheMissFor at hmiss
  have hgp : get_prices [symbol] [b] now net st = ([], st) := by
    unfold get_prices
    rw [hmiss, coinIdsOf_single_none hmap]
    rfl
  unfold get_price
  rw [hgp]
  rfl

/-- Pricing any other line cannot create a fresh cache entry under an
unmapped symbol's key: the only key `get_price x` can insert is
`"<x>:<currency>"`, and if that coincided with the unmapped symbol's key
then `x` would be the same (unmapped) symbol, for which nothing is ever
cached. -/
theorem get_price_preserves_miss (x h b : String) (now : Int)
    (net : List String → HttpOutcome PriceData) (st : PCState)
    (hmap : dictGet SYMBOL_TO_ID (pyUpper h) = none)
    (hmiss : cacheMissFor st h b now) :
    cacheMissFor (get_price x b now net st).2 h b now := by
  have hst2 : (get_price x b now net st).2 = (get_prices [x] [b] now net st).2 := by
    unfold get_price
    cases dictGet (get_prices [x] [b] now net st).1 (pyUpper x) with
    | none => rfl
    | some row =>
      dsimp only
      cases dictGet row b with
      | none => rfl
      | some p => rfl
  rw [hst2]
  unfold get_prices
  cases hl : cacheLookup st.cache (cacheKey [x] [b]) now PRICE_CACHE_TTL with
  | some c => exact hmiss
  | none =>
    by_cases hids : (coinIdsOf [x]).isEmpty = true
    · simp only [hids, if_true]
      exact hmiss
    · simp only [hids, Bool.false_eq_true, if_false]
      cases hnet : net (coinIdsOf [x]) with
      | netErr m => exact hmiss
      | ok data =>
        unfold cacheMissFor at hmiss ⊢
        show cacheLookup ((cacheKey [x] [b], buildResult [x] data, now) :: st.cache)
          (cacheKey [h] [b]) now PRICE_CACHE_TTL = none
        unfold cacheLookup
        rw [if_neg]
        · exact hmiss
        · intro hcond
          simp only [Bool.and_eq_true, decide_eq_true_eq] at hcond
          have hx : x = h := cacheKey_single_inj hcond.1
          obtain ⟨cid, hcid⟩ := coinIdsOf_single_ne_nil hids
          rw [hx, hmap] at hcid
          exact Option.noConfusion hcid

theorem valuateLines_preserves_miss (lines : List (String × ℚ)) (h b : String)
    (now : Int) (net : List String → HttpOutcome PriceData)
    (hmap : dictGet SYMBOL_TO_ID (pyUpper h) = none) :
    ∀ start : ℚ × PCState, cacheMissFor start.2 h b now →
      cacheMissFor (valuateLines lines b now net start).2 h b now := by
  induction lines with
  | nil => intro start hm; exact hm
  | cons p rest ih =>
    intro start hm
    have hstep := get_price_preserves_miss p.1 h b now net start.2 hmap hm
    have : valuateLines (p :: rest) b now net start =
        valuateLines rest b now net
          (start.1 + p.2 * (get_price p.1 b now net start.2).1,
            (get_price p.1 b now net start.2).2) := by
      simp [valuateLines]
    rw [this]
    exact ih _ hstep

/-- Dropping an unpriceable line from a valuation fold changes nothing:
its price is `0`, its contribution `balance * 0` vanishes, and the cache
state seen by every later line is identical. -/
theorem valuateLines_skip_unmapped (pre post : List (String × ℚ))
    (hsym : String) (hbal : ℚ) (b : String) (now : Int)
    (net : List String → HttpOutcome PriceData)
    (hmap : dictGet SYMBOL_TO_ID (pyUpper hsym) = none) :
    ∀ start : ℚ × PCState, cacheMissFor start.2 hsym b now →
      valuateLines (pre ++ (hsym, hbal) :: post) b now net start =
        valuateLines (pre ++ post) b now net start := by
  induction pre with
  | nil =>
    intro start hm
    obtain ⟨t, st⟩ := start
    have h0 : get_price hsym b now net st = (0, st) :=
      get_price_unmapped hsym b now net st hmap hm
    simp [valuateLines, h0]
  | cons p rest ih =>
    intro start hm
    have hstep := get_price_preserves_miss p.1 hsym b now net start.2 hmap hm
    have hl : ∀ l : List (String × ℚ), valuateLines (p :: l) b now net start =
        valuateLines l b now net
          (start.1 + p.2 * (get_price p.1 b now net start.2).1,
            (get_price p.1 b now net start.2).2) := by
      intro l
      simp [valuateLines]
    simp only [List.cons_append]
    rw [hl, hl]
    exact ih _ hstep

/-- C5: an unpriced symbol prices to `0` rather than raising, and a
holding that cannot be priced contributes exactly zero to an account's
valuation while every other holding is still summed — dropping it changes
neither the total nor the cache the other holdings see (shown for
exchange accounts and for wallet token holdings). -/
theorem c5_unpriced_holdings_contribute_zero :
    (∀ (symbol vs_currency : String) (now : Int)
      (net : List String → HttpOutcome PriceData) (st : PCState),
      dictGet SYMBOL_TO_ID (pyUpper symbol) = none →
      cacheMissFor st symbol vs_currency now →
      get_price symbol vs_currency now net st = (0, st))
    ∧ (∀ (acct : Account) (pre post : List ExchangeHolding) (hsym : String)
      (hbal : ℚ) (b : String) (now : Int)
      (net : List String → HttpOutcome PriceData) (st : PCState),
      acct.type = "exchange" →
      acct.data = some (AccountData.exchangeData (pre ++ ⟨hsym, hbal⟩ :: post)) →
      dictGet SYMBOL_TO_ID (pyUpper hsym) = none →
      cacheMissFor st hsym b now →
      calculate_account_value acct b now net st =
        calculate_account_value
          { acct with data := some (AccountData.exchangeData (pre ++ post)) }
          b now net st)
    ∧ (∀ (acct : Account) (native : Option NativeHolding)
      (pre post : List TokenHolding) (hsym : String) (hbal : ℚ)
      (haddr hname : String) (b : String) (now : Int)
      (net : List String → HttpOutcome PriceData) (st : PCState),
      acct.type = "wallet" →
      acct.data = some (AccountData.walletData native
        (pre ++ ⟨hsym, hbal, haddr, hname⟩ :: post)) →
      dictGet SYMBOL_TO_ID (pyUpper hsym) = none →
      cacheMissFor st hsym b now →
      calculate_account_value acct b now net st =
        calculate_account_value
          { acct with data := some (AccountData.walletData native (pre ++ post)) }
          b now net st) := by
  refine ⟨get_price_unmapped, ?_, ?_⟩
  · intro acct pre post hsym hbal b now net st htype hdata hmap hmiss
    have hnw : acct.type ≠ "wallet" := by rw [htype]; decide
    unfold calculate_account_value
    simp only [htype, hdata, hnw, if_false, if_pos rfl, List.map_append, List.map_cons]
    exact valuateLines_skip_unmapped (pre.map fun x => (x.symbol, x.balance))
      (post.map fun x => (x.symbol, x.balance)) hsym hbal b now net hmap (0, st) hmiss
  · intro acct native pre post hsym hbal haddr hname b now net st htype hdata hmap hmiss
    unfold calculate_account_value
    simp only [htype, hdata, if_pos rfl, List.map_append, List.map_cons]
    cases native with
    | none =>
      exact valuateLines_skip_unmapped (pre.map fun x => (x.symbol, x.balance))
        (post.map fun x => (x.symbol, x.balance)) hsym hbal b now net hmap (0, st) hmiss
    | some n =>
      have hstep := get_price_preserves_miss n.symbol hsym b now net st hmap hmiss
      exact valuateLines_skip_unmapped (pre.map fun x => (x.symbol, x.balance))
        (post.map fun x => (x.symbol, x.balance)) hsym hbal b now net hmap
        (n.balance * (get_price n.symbol b now net st).1,
          (get_price n.symbol b now net st).2) hstep

/-- C5 (witness): the pricing of the unmapped symbol `FOO` returns `0`,
and dropping a `FOO` holding from a concrete exchange account leaves its
valuation call unchanged. -/
theorem c5_unpriced_holdings_witness :
    get_price "FOO" "usd" 0 (fun _ => HttpOutcome.ok samplePriceData) PCState.empty =
      (0, PCState.empty)
    ∧ calculate_account_value
        ⟨"exchange_binance_x", "exchange", "x", none, none, some "binance",
          some (AccountData.exchangeData [⟨"BTC", 2⟩, ⟨"FOO", 5⟩, ⟨"ETH", 3⟩]), none⟩
        "usd" 0 (fun _ => HttpOutcome.ok samplePriceData) PCState.empty =
      calculate_account_value
        ⟨"exchange_binance_x", "exchange", "x", none, none, some "binance",
          some (AccountData.exchangeData [⟨"BTC", 2⟩, ⟨"ETH", 3⟩]), none⟩
        "usd" 0 (fun _ => HttpOutcome.ok samplePriceData) PCState.empty :=
  ⟨c5_unpriced_holdings_contribute_zero.1 "FOO" "usd" 0
      (fun _ => HttpOutcome.ok samplePriceData) PCState.empty (by decide) rfl,
   c5_unpriced_holdings_contribute_zero.2.1
      ⟨"exchange_binance_x", "exchange", "x", none, none, some "binance",
        some (AccountData.exchangeData [⟨"BTC", 2⟩, ⟨"FOO", 5⟩, ⟨"ETH", 3⟩]), none⟩
      [⟨"BTC", 2⟩] [⟨"ETH", 3⟩] "FOO" 5 "usd" 0
      (fun _ => HttpOutcome.ok samplePriceData) PCState.empty rfl rfl (by decide) rfl⟩

end WallAgg

namespace WallAgg

/-! ## Claim C6 — exchange refresh with a missing or expired credential -/

theorem get_credential_start_absent (now : Int) (id : String) (s : SessionSt)
    (h : s.session_start = none) :
    get_credential now id s = Except.ok (none, clear_session s) := by
  unfold get_credential is_session_valid
  rw [h]
  rfl

theorem get_credential_expired (now : Int) (id : String) (s : SessionSt)
    (t : Int) (h : s.session_start = some (some t))
    (hexp : SESSION_TIMEOUT ≤ now - t) :
    get_credential now id s = Except.ok (none, clear_session s) := by
  have hdec : decide (now - t < SESSION_TIMEOUT) = false :=
    decide_eq_false (not_lt.mpr hexp)
  unfold get_credential is_session_valid
  rw [h]
  dsimp only
  rw [hdec]
  rfl

theorem get_credential_entry_missing (now : Int) (id : String) (s : SessionSt)
    (t : Int) (m : List (String × Credential))
    (h : s.session_start = some (some t)) (hlive : now - t < SESSION_TIMEOUT)
    (hm : s.credentials = some m) (hmiss : dictGet m id = none) :
    get_credential now id s = Except.ok (none, s) := by
  have hdec : decide (now - t < SESSION_TIMEOUT) = true := decide_eq_true hlive
  unfold get_credential is_session_valid
  rw [h]
  dsimp only
  rw [hdec, hm]
  dsimp only
  rw [hmiss]
  rfl

/-- C6: when an exchange account's session credential is unavailable —
the session was never started, the session has reached its timeout, or
the session is live but holds no entry for this account id — the refresh
raises the reported session-expired `ValueError` (which the UI catches
and shows; it is not an unhandled crash) and the account object,
including `data` (the holdings of the last successful refresh) and
`last_updated`, is left exactly as it was. -/
theorem c6_exchange_refresh_session_expired (acct : Account) (sess : SessionSt)
    (now : Int) (env : NetEnv)
    (hcond : sess.session_start = none
      ∨ (∃ t, sess.session_start = some (some t) ∧ SESSION_TIMEOUT ≤ now - t)
      ∨ (∃ t m, sess.session_start = some (some t) ∧ now - t < SESSION_TIMEOUT
          ∧ sess.credentials = some m ∧ dictGet m acct.id = none)) :
    (refresh_exchange acct sess now env).1 =
      Except.error (PyExc.valueError
        ("Session expired for " ++ acct.name ++ ". Please re-enter API keys."))
    ∧ (refresh_exchange acct sess now env).2.1 = acct := by
  have hget : ∃ s', get_credential now acct.id sess = Except.ok (none, s') := by
    rcases hcond with h | ⟨t, h, hexp⟩ | ⟨t, m, h, hlive, hm, hmiss⟩
    · exact ⟨clear_session sess, get_credential_start_absent now acct.id sess h⟩
    · exact ⟨clear_session sess, get_credential_expired now acct.id sess t h hexp⟩
    · exact ⟨sess, get_credential_entry_missing now acct.id sess t m h hlive hm hmiss⟩
  obtain ⟨s', hs'⟩ := hget
  unfold refresh_exchange
  rw [hs']
  exact ⟨rfl, rfl⟩

/-- C6 (witness): a concrete exchange account whose session entry was
stored at time 0 and is consulted at time 3601 — refresh reports the
session-expired error and the account is unchanged. -/
theorem c6_exchange_refresh_witness :
    (refresh_exchange
        ⟨"exchange_binance_main", "exchange", "Main", none, none, some "binance",
          some (AccountData.exchangeData [⟨"BTC", 1⟩]), some 50⟩
        ⟨some (some "sid"), some (some 0),
          some [("exchange_binance_main", ⟨"k", "s", 0⟩)]⟩
        3601
        ⟨fun _ => HttpOutcome.netErr "n", fun _ => 0, fun _ => HttpOutcome.netErr "n",
          fun _ => HttpOutcome.netErr "n", fun _ => Except.ok []⟩).1 =
      Except.error (PyExc.valueError
        "Session expired for Main. Please re-enter API keys.")
    ∧ (refresh_exchange
        ⟨"exchange_binance_main", "exchange", "Main", none, none, some "binance",
          some (AccountData.exchangeData [⟨"BTC", 1⟩]), some 50⟩
        ⟨some (some "sid"), some (some 0),
          some [("exchange_binance_main", ⟨"k", "s", 0⟩)]⟩
        3601
        ⟨fun _ => HttpOutcome.netErr "n", fun _ => 0, fun _ => HttpOutcome.netErr "n",
          fun _ => HttpOutcome.netErr "n", fun _ => Except.ok []⟩).2.1 =
      ⟨"exchange_binance_main", "exchange", "Main", none, none, some "binance",
        some (AccountData.exchangeData [⟨"BTC", 1⟩]), some 50⟩ :=
  c6_exchange_refresh_session_expired
    ⟨"exchange_binance_main", "exchange", "Main", none, none, some "binance",
      some (AccountData.exchangeData [⟨"BTC", 1⟩]), some 50⟩
    ⟨some (some "sid"), some (some 0),
      some [("exchange_binance_main", ⟨"k", "s", 0⟩)]⟩
    3601
    ⟨fun _ => HttpOutcome.netErr "n", fun _ => 0, fun _ => HttpOutcome.netErr "n",
      fun _ => HttpOutcome.netErr "n", fun _ => Except.ok []⟩
    (Or.inr (Or.inl ⟨0, rfl, by norm_num [SESSION_TIMEOUT]⟩))

end WallAgg

namespace WallAgg

/-! ## Claim C7 — bounded two-phase token discovery -/

theorem foldl_cond_append_length {α β : Type} (f : α → β) (q : α → Prop)
    [DecidablePred q] :
    ∀ (l : List α) (acc : List β),
      (List.foldl (fun acc2 p => if q p then acc2 ++ [f p] else acc2) acc l).length ≤
        acc.length + l.length := by
  intro l
  induction l with
  | nil => intro acc; simp
  | cons p rest ih =>
    intro acc
    simp only [List.foldl_cons]
    by_cases hq : q p
    · rw [if_pos hq]
      have := ih (acc ++ [f p])
      simp only [List.length_append, List.length_singleton, List.length_cons,
        List.length_nil] at this ⊢
      omega
    · rw [if_neg hq]
      have := ih acc
      simp only [List.length_cons] at this ⊢
      omega

theorem checkMajorTokens_length_le (probe : TokenProbe) :
    (checkMajorTokens probe).length ≤ MAJOR_TOKENS.length := by
  have h := foldl_cond_append_length
    (fun p : String × TokenInfo =>
      (⟨p.2.symbol, pyFloatDiv (probe p.1 : ℚ) ((10 : ℚ) ^ p.2.decimals), p.1,
        p.2.name⟩ : TokenHolding))
    (fun p : String × TokenInfo => 0 < probe p.1) MAJOR_TOKENS []
  simpa [checkMajorTokens] using h

theorem checkAdditional_log_eq (probe : TokenProbe) :
    ∀ (cand : List (String × TokenInfo)) (count : Nat),
      (checkAdditional probe cand count).2 =
        (cand.take (20 - count)).map (fun p => p.1) := by
  intro cand
  induction cand with
  | nil => intro count; simp [checkAdditional]
  | cons c rest ih =>
    obtain ⟨addr, info⟩ := c
    intro count
    by_cases h : 20 ≤ count
    · have h0 : 20 - count = 0 := by omega
      simp [checkAdditional, h, h0]
    · have h1 : 20 - count = (20 - (count + 1)) + 1 := by omega
      simp only [checkAdditional, h, if_neg, ih (count + 1), h1, List.take_succ_cons,
        List.map_cons]
      simp [h]

theorem checkAdditional_tokens_le (probe : TokenProbe) :
    ∀ (cand : List (String × TokenInfo)) (count : Nat),
      (checkAdditional probe cand count).1.length ≤ 20 - count := by
  intro cand
  induction cand with
  | nil => intro count; simp [checkAdditional]
  | cons c rest ih =>
    obtain ⟨addr, info⟩ := c
    intro count
    by_cases h : 20 ≤ count
    · simp [checkAdditional, h]
    · have hr := ih (count + 1)
      by_cases hb : 0 < probe addr
      · simp [checkAdditional, h, hb]
        omega
      · simp [checkAdditional, h, hb]
        omega

/-- With a valid address, one attempt of `get_token_balances` resolves
into the three shapes of the body: failed or empty history keeps only the
major tokens; otherwise the discovered candidates are probed through the
bounded STEP 4 loop. -/
theorem eth_token_body_ok (addr : String) (probe : TokenProbe)
    (net : Nat → HttpOutcome TokentxResp) (attempt : Nat)
    (hval : eth_validate_address addr = true) :
    eth_token_body addr probe net attempt =
      match net attempt with
      | HttpOutcome.netErr _ => (Except.ok (checkMajorTokens probe, majorAddrs), 15)
      | HttpOutcome.ok resp =>
        if resp.status ≠ "1" || resp.result.isEmpty then
          (Except.ok (checkMajorTokens probe, majorAddrs), 15)
        else
          (Except.ok (checkMajorTokens probe ++
              (checkAdditional probe (extractContracts majorChecked resp.result) 0).1,
            majorAddrs ++
              (checkAdditional probe (extractContracts majorChecked resp.result) 0).2),
            15 + (checkAdditional probe (extractContracts majorChecked resp.result) 0).2.length) := by
  unfold eth_token_body
  rw [hval]
  rfl

theorem extract_aux (checked : List String) :
    ∀ (txs : List TokenTx) (acc : List (String × TokenInfo)),
      (∀ p ∈ acc, checked.contains p.1 = false) →
      ∀ p ∈ txs.foldl
          (fun acc tx =>
            if checked.contains (pyLower tx.contractAddress) ||
                acc.any (fun p => p.1 == pyLower tx.contractAddress) then acc
            else acc ++ [(pyLower tx.contractAddress,
              ⟨tx.tokenSymbol, tx.tokenDecimal.getD 18, tx.tokenName⟩)])
          acc,
        checked.contains p.1 = false := by
  intro txs
  induction txs with
  | nil => intro acc hacc p hp; exact hacc p hp
  | cons tx rest ih =>
    intro acc hacc p hp
    simp only [List.foldl_cons] at hp
    by_cases hc : (checked.contains (pyLower tx.contractAddress) ||
        acc.any (fun p => p.1 == pyLower tx.contractAddress)) = true
    · rw [if_pos hc] at hp
      exact ih acc hacc p hp
    · rw [if_neg hc] at hp
      refine ih _ ?_ p hp
      intro q hq
      rcases List.mem_append.mp hq with hq | hq
      · exact hacc q hq
      · simp only [List.mem_singleton] at hq
        subst hq
        simp only [Bool.or_eq_true, not_or] at hc
        cases hcb : checked.contains (pyLower tx.contractAddress) with
        | false => rfl
        | true => exact absurd hcb hc.1

/-- C7: the two-phase discovery is bounded and ordered as claimed — the
allow-list is probed first, then at most 20 contracts from the transfer
history, excluding (by lower-cased address comparison) contracts already
checked; the probe log is at most allow-list-size + 20 long, the result
list is bounded the same way, and on a history naming 25 fresh contracts
exactly the first 20 of them are probed. -/
theorem c7_token_discovery_bounded :
    (∀ (addr : String) (probe : TokenProbe) (net : Nat → HttpOutcome TokentxResp),
      eth_validate_address addr = true →
      ∃ tl reqs, eth_token_body addr probe net 1 = (Except.ok tl, reqs) ∧
        eth_get_token_balances addr probe net = (Except.ok tl, 1, reqs))
    ∧ (∀ (addr : String) (probe : TokenProbe) (net : Nat → HttpOutcome TokentxResp)
      (attempt : Nat) (tokens : List TokenHolding) (log : List String),
      (eth_token_body addr probe net attempt).1 = Except.ok (tokens, log) →
      log.length ≤ MAJOR_TOKENS.length + 20
      ∧ tokens.length ≤ MAJOR_TOKENS.length + 20
      ∧ ∃ rest, log = majorAddrs ++ rest ∧ rest.length ≤ 20)
    ∧ (∀ (checked : List String) (txs : List TokenTx) (p : String × TokenInfo),
      p ∈ extractContracts checked txs → checked.contains p.1 = false)
    ∧ (∀ (addr : String) (probe : TokenProbe) (net : Nat → HttpOutcome TokentxResp),
      eth_validate_address addr = true →
      net 1 = HttpOutcome.ok ⟨"1", hist25⟩ →
      eth_get_token_balances addr probe net =
        (Except.ok (checkMajorTokens probe ++
            (checkAdditional probe (extractContracts majorChecked hist25) 0).1,
          majorAddrs ++
            ((extractContracts majorChecked hist25).map (fun p => p.1)).take 20),
          1, 35)
      ∧ (extractContracts majorChecked hist25).length = 25
      ∧ (majorAddrs ++
          ((extractContracts majorChecked hist25).map (fun p => p.1)).take 20).length =
        MAJOR_TOKENS.length + 20) := by
  have hbounds : ∀ (addr : String) (probe : TokenProbe)
      (net : Nat → HttpOutcome TokentxResp) (attempt : Nat)
      (tokens : List TokenHolding) (log : List String),
      (eth_token_body addr probe net attempt).1 = Except.ok (tokens, log) →
      log.length ≤ MAJOR_TOKENS.length + 20
      ∧ tokens.length ≤ MAJOR_TOKENS.length + 20
      ∧ ∃ rest, log = majorAddrs ++ rest ∧ rest.length ≤ 20 := by
    intro addr probe net attempt tokens log h
    cases hval : eth_validate_address addr with
    | false =>
      unfold eth_token_body at h
      rw [hval] at h
      simp at h
    | true =>
      rw [eth_token_body_ok addr probe net attempt hval] at h
      have hmaj : (majorAddrs : List String).length = MAJOR_TOKENS.length := by
        simp [majorAddrs]
      have hmt : (checkMajorTokens probe).length ≤ MAJOR_TOKENS.length :=
        checkMajorTokens_length_le probe
      cases hnet : net attempt with
      | netErr m =>
        rw [hnet] at h
        simp only [Except.ok.injEq, Prod.mk.injEq] at h
        obtain ⟨ht, hl⟩ := h
        subst ht; subst hl
        exact ⟨by omega, by omega, [], by simp, by simp⟩
      | ok resp =>
        rw [hnet] at h
        dsimp only at h
        by_cases hcond : (resp.status ≠ "1" || resp.result.isEmpty) = true
        · rw [if_pos hcond] at h
          simp only [Except.ok.injEq, Prod.mk.injEq] at h
          obtain ⟨ht, hl⟩ := h
          subst ht; subst hl
          exact ⟨by omega, by omega, [], by simp, by simp⟩
        · rw [if_neg hcond] at h
          simp only [Except.ok.injEq, Prod.mk.injEq] at h
          obtain ⟨ht, hl⟩ := h
          subst ht; subst hl
          have hlog : (checkAdditional probe
              (extractContracts majorChecked resp.result) 0).2.length ≤ 20 := by
            rw [checkAdditional_log_eq probe, List.length_map, List.length_take]
            omega
          have htok : (checkAdditional probe
              (extractContracts majorChecked resp.result) 0).1.length ≤ 20 := by
            have := checkAdditional_tokens_le probe
              (extractContracts majorChecked resp.result) 0
            omega
          refine ⟨by simp only [List.length_append]; omega,
            by simp only [List.length_append]; omega,
            (checkAdditional probe (extractContracts majorChecked resp.result) 0).2,
            rfl, hlog⟩
  refine ⟨?_, hbounds, ?_, ?_⟩
  · intro addr probe net hval
    have hok : ∃ tl reqs, eth_token_body addr probe net 1 = (Except.ok tl, reqs) := by
      rw [eth_token_body_ok addr probe net 1 hval]
      cases net 1 with
      | netErr m => exact ⟨_, _, rfl⟩
      | ok resp =>
        dsimp only
        by_cases hcond : (resp.status ≠ "1" || resp.result.isEmpty) = true
        · rw [if_pos hcond]; exact ⟨_, _, rfl⟩
        · rw [if_neg hcond]; exact ⟨_, _, rfl⟩
    obtain ⟨tl, reqs, hb⟩ := hok
    exact ⟨tl, reqs, hb, tenacityCall_first_ok _ tl reqs hb⟩
  · intro checked txs p hp
    unfold extractContracts at hp
    exact extract_aux checked txs [] (by simp) p hp
  · intro addr probe net hval hnet
    have hcand25 : (extractContracts majorChecked hist25).length = 25 := by decide
    have htake : ((extractContracts majorChecked hist25).map (fun p => p.1)).take 20 =
        ((extractContracts majorChecked hist25).take 20).map (fun p => p.1) := by
      rw [List.map_take]
    have hlog20 : (checkAdditional probe (extractContracts majorChecked hist25) 0).2 =
        ((extractContracts majorChecked hist25).map (fun p => p.1)).take 20 := by
      rw [checkAdditional_log_eq, htake]
    have hloglen : (((extractContracts majorChecked hist25).map
        (fun p => p.1)).take 20).length = 20 := by
      rw [List.length_take, List.length_map, hcand25]
      rfl
    have hb : eth_token_body addr probe net 1 =
        (Except.ok (checkMajorTokens probe ++
            (checkAdditional probe (extractContracts majorChecked hist25) 0).1,
          majorAddrs ++
            ((extractContracts majorChecked hist25).map (fun p => p.1)).take 20),
          35) := by
      rw [eth_token_body_ok addr probe net 1 hval, hnet]
      dsimp only
      rw [if_neg (by decide)]
      rw [hlog20, hloglen]
    refine ⟨tenacityCall_first_ok _ _ _ hb, hcand25, ?_⟩
    rw [List.length_append, hloglen]
    rfl

/-- C7 (witness): discovery at a concrete valid address, a probe that
reports balance 1 everywhere, and the 25-contract history — exactly the
first 20 discovered contracts are probed after the 14 allow-list probes,
one attempt, 35 HTTP requests. -/
theorem c7_token_discovery_witness :
    eth_get_token_balances "0xaaaaaaaaaaaaaaaaaaaaaaaaaaaaaaaaaaaaaaaa"
        (fun _ => 1) (fun _ => HttpOutcome.ok ⟨"1", hist25⟩) =
      (Except.ok (checkMajorTokens (fun _ => 1) ++
          (checkAdditional (fun _ => 1) (extractContracts majorChecked hist25) 0).1,
        majorAddrs ++
          ((extractContracts majorChecked hist25).map (fun p => p.1)).take 20),
        1, 35)
    ∧ (extractContracts majorChecked hist25).length = 25 :=
  ⟨(c7_token_discovery_bounded.2.2.2 "0xaaaaaaaaaaaaaaaaaaaaaaaaaaaaaaaaaaaaaaaa"
      (fun _ => 1) (fun _ => HttpOutcome.ok ⟨"1", hist25⟩) (by decide) rfl).1,
   (c7_token_discovery_bounded.2.2.2 "0xaaaaaaaaaaaaaaaaaaaaaaaaaaaaaaaaaaaaaaaa"
      (fun _ => 1) (fun _ => HttpOutcome.ok ⟨"1", hist25⟩) (by decide) rfl).2.1⟩

end WallAgg
